import Mathlib

/-!
Verification of the osx-file-renamer pipeline (src/invoice_renamer.py and
src/grok.py).  The Python functions are shallowly embedded as executable
Lean definitions over `String`/`List Char`/`List Nat`, keeping the source
names and control flow.  External effects (the subprocess call to the AI
backend, `ImageMagick` invocations, the filesystem, `md5`) are passed in as
explicit parameters so that every embedded function stays pure and total.
-/

namespace OsxRenamer

/-! ## ASCII character helpers (modelling Python `str` operations) -/

def asciiLower (c : Char) : Char :=
  if 65 ≤ c.toNat ∧ c.toNat ≤ 90 then Char.ofNat (c.toNat + 32) else c

def asciiUpper (c : Char) : Char :=
  if 97 ≤ c.toNat ∧ c.toNat ≤ 122 then Char.ofNat (c.toNat - 32) else c

def isAsciiAlpha (c : Char) : Bool :=
  decide ((65 ≤ c.toNat ∧ c.toNat ≤ 90) ∨ (97 ≤ c.toNat ∧ c.toNat ≤ 122))

def isAsciiUpper (c : Char) : Bool :=
  decide (65 ≤ c.toNat ∧ c.toNat ≤ 90)

def isAsciiDigit (c : Char) : Bool :=
  decide (48 ≤ c.toNat ∧ c.toNat ≤ 57)

/-- Numeric value of an ASCII digit character. -/
def digitVal (c : Char) : Nat := c.toNat - 48

/-- Whitespace characters recognised by Python `\s` / `str.split` (ASCII part). -/
def pyWs (c : Char) : Bool :=
  decide (c.toNat = 32 ∨ c.toNat = 9 ∨ c.toNat = 10 ∨ c.toNat = 13 ∨ c.toNat = 11 ∨ c.toNat = 12)

def asciiLowerStr (s : String) : String := String.mk (s.data.map asciiLower)

/-- Python `str.strip()` (leading and trailing whitespace removed). -/
def pyStrip (s : String) : String :=
  String.mk (((s.data.dropWhile pyWs).reverse.dropWhile pyWs).reverse)

/-- Python `str.rstrip()`. -/
def pyRstrip (s : String) : String :=
  String.mk ((s.data.reverse.dropWhile pyWs).reverse)

/-- Illegal filename characters removed by `clean_filename`. -/
def illegalChar (c : Char) : Bool :=
  ['<', '>', ':', '"', '/', '\\', '|', '?', '*'].contains c

def removeIllegal (s : String) : String :=
  String.mk (s.data.filter (fun c => !illegalChar c))

/-- One pass of `re.sub(r'\s+', ' ', ...)`: collapse whitespace runs to a
single space.  The boolean argument records whether the previous character
was whitespace. -/
def collapseWsGo : Bool → List Char → List Char
  | _, [] => []
  | prevWs, c :: rest =>
    if pyWs c = true then
      (if prevWs then collapseWsGo true rest else ' ' :: collapseWsGo true rest)
    else c :: collapseWsGo false rest

def collapseWs (s : String) : String := String.mk (collapseWsGo false s.data)

/-- Python `str.split()` with no argument: split on whitespace runs,
dropping empty pieces.  The accumulator holds the current word reversed. -/
def splitWsAux : List Char → List Char → List (List Char)
  | [], acc => if acc.isEmpty then [] else [acc.reverse]
  | c :: rest, acc =>
    if pyWs c = true then
      (if acc.isEmpty then splitWsAux rest [] else acc.reverse :: splitWsAux rest [])
    else splitWsAux rest (c :: acc)

def pySplit (s : String) : List String := (splitWsAux s.data []).map String.mk

/-- Python `' '.join(words)`. -/
def joinSpace : List String → String
  | [] => ""
  | [w] => w
  | w :: rest => w ++ (" ") ++ joinSpace rest

def strTake (s : String) (n : Nat) : String := String.mk (s.data.take n)

def strEndsWith (s suffix : String) : Bool := suffix.data.isSuffixOf s.data

/-- Python slicing `s[:-n]` for `n ≥ 1` (drop the last `n` characters). -/
def strDropRight (s : String) (n : Nat) : String :=
  String.mk (s.data.take (s.data.length - n))

/-- Python `str.title()`, the fallback used by invoice_renamer.py when the
titlecase package is missing.  The boolean argument records whether the
previous character was a cased (alphabetic) character. -/
def pyTitleGo : Bool → List Char → List Char
  | _, [] => []
  | prev, c :: rest =>
    if isAsciiAlpha c = true then
      (if prev then asciiLower c else asciiUpper c) :: pyTitleGo true rest
    else c :: pyTitleGo false rest

def titlecase (s : String) : String := String.mk (pyTitleGo false s.data)

/-! ## clean_filename (invoice_renamer.py lines 213-248) -/

/-- Trailing articles/conjunctions/prepositions/common business terms
stripped from the end of a word-limited name. -/
def trailing_words : List String :=
  [("and"), ("or"), ("of"), ("the"), ("a"), ("an"), ("for"), ("to"), ("in"),
   ("at"), ("by"), ("with"), ("company"), ("inc"), ("llc"), ("ltd"),
   ("corp"), ("corporation")]

/-- Lines 219-221: remove illegal characters, normalise whitespace, strip. -/
def clean_stage1 (t : String) : String := pyStrip (collapseWs (removeIllegal t))

/-- Lines 223-228: apply titlecase when more than 70 percent of the letters
are uppercase and the cleaned string has at least 5 characters. -/
def applyShouty (s : String) : String :=
  let letters := s.data.filter isAsciiAlpha
  if letters ≠ [] ∧ (letters.filter isAsciiUpper).length * 10 > letters.length * 7 then
    (if s.length ≥ 5 then titlecase s else s)
  else s

/-- Lines 231-234: cap at `n` words. -/
def capWords (n : Nat) (s : String) : String :=
  let words := pySplit s
  if words.length > n then joinSpace (words.take n) else s

/-- Lines 237-239: pop trailing stopwords. -/
def dropTrailingStop (ws : List String) : List String :=
  (ws.reverse.dropWhile (fun w => trailing_words.contains (asciiLowerStr w))).reverse

/-- Lines 230-242: the `if limit_words:` block. -/
def applyLimit (n : Nat) (s : String) : String :=
  let cleaned := capWords n s
  let ws := dropTrailingStop (pySplit cleaned)
  if ws ≠ [] then joinSpace ws else cleaned

/-- Lines 244-246: cap at 50 characters (then rstrip). -/
def truncate50 (s : String) : String :=
  if s.length > 50 then pyRstrip (strTake s 50) else s

/-- invoice_renamer.py `clean_filename(text, limit_words=None)`.  `none`
input or an empty string yields "Unknown"; the word limit is only applied
when truthy (non-zero). -/
def clean_filename (text : Option String) (limit_words : Option Nat) : String :=
  match text with
  | none => ("Unknown")
  | some t =>
    if t = "" then ("Unknown")
    else
      let cleaned := applyShouty (clean_stage1 t)
      let cleaned :=
        match limit_words with
        | some n => if n = 0 then cleaned else applyLimit n cleaned
        | none => cleaned
      let cleaned := truncate50 cleaned
      if cleaned = "" then ("Unknown") else cleaned

/-! ## format_date (invoice_renamer.py lines 250-293)

`datetime.strptime` against the nine formats in `date_formats` is embedded
as a deterministic token interpreter.  Each directive of a Python format
string becomes a `Tok`; `%Y` matches exactly four digits, `%m` and `%d`
match the value-constrained one-or-two-digit regular expressions that
CPython compiles for them, `%B`/`%b` match English month names
case-insensitively, a literal space matches one or more whitespace
characters, and the whole input must be consumed.  For these formats the
deterministic longest-alternative-first reading coincides with the
backtracking regex because every `%m`/`%d` is followed by a non-digit
literal.  `datetime`'s own range check (year at least 1, day at most the
month length) is applied after matching. -/

/-- Gregorian leap year, as both `datetime` and the manual check at
line 287 compute it. -/
def isLeap (y : Nat) : Bool := decide (y % 4 = 0 ∧ (y % 100 ≠ 0 ∨ y % 400 = 0))

/-- The `days_in_month` table of line 287. -/
def daysInMonth (y m : Nat) : Nat :=
  match m with
  | 1 => 31
  | 2 => if isLeap y then 29 else 28
  | 3 => 31
  | 4 => 30
  | 5 => 31
  | 6 => 30
  | 7 => 31
  | 8 => 31
  | 9 => 30
  | 10 => 31
  | 11 => 30
  | 12 => 31
  | _ => 31

/-- `%Y`: exactly four digits. -/
def parse4Y : List Char → Option (Nat × List Char)
  | a :: b :: c :: d :: rest =>
    if isAsciiDigit a = true ∧ isAsciiDigit b = true ∧ isAsciiDigit c = true ∧ isAsciiDigit d = true then
      some (((digitVal a * 10 + digitVal b) * 10 + digitVal c) * 10 + digitVal d, rest)
    else none
  | _ => none

/-- `%m`: the regex `1[0-2]|0[1-9]|[1-9]`. -/
def parseMon : List Char → Option (Nat × List Char)
  | c1 :: c2 :: rest =>
    if c1 = '0' ∨ c1 = '1' then
      (if c1 = '1' ∧ (48 ≤ c2.toNat ∧ c2.toNat ≤ 50) then some (10 + digitVal c2, rest)
       else if c1 = '0' ∧ (49 ≤ c2.toNat ∧ c2.toNat ≤ 57) then some (digitVal c2, rest)
       else if 49 ≤ c1.toNat ∧ c1.toNat ≤ 57 then some (digitVal c1, c2 :: rest)
       else none)
    else if 49 ≤ c1.toNat ∧ c1.toNat ≤ 57 then some (digitVal c1, c2 :: rest)
    else none
  | [c1] => if 49 ≤ c1.toNat ∧ c1.toNat ≤ 57 then some (digitVal c1, []) else none
  | [] => none

/-- `%d`: the regex `3[01]|[12]\d|0[1-9]|[1-9]`. -/
def parseDay : List Char → Option (Nat × List Char)
  | c1 :: c2 :: rest =>
    if c1 = '3' ∧ (c2 = '0' ∨ c2 = '1') then some (30 + digitVal c2, rest)
    else if (c1 = '1' ∨ c1 = '2') ∧ isAsciiDigit c2 = true then
      some (digitVal c1 * 10 + digitVal c2, rest)
    else if c1 = '0' ∧ (49 ≤ c2.toNat ∧ c2.toNat ≤ 57) then some (digitVal c2, rest)
    else if 49 ≤ c1.toNat ∧ c1.toNat ≤ 57 then some (digitVal c1, c2 :: rest)
    else none
  | [c1] => if 49 ≤ c1.toNat ∧ c1.toNat ≤ 57 then some (digitVal c1, []) else none
  | [] => none

/-- Case-insensitively consume `name` (stored lowercase) from the front of
the input, returning the remainder. -/
def eatNameCI : List Char → List Char → Option (List Char)
  | [], s => some s
  | _ :: _, [] => none
  | c :: cs, x :: xs => if asciiLower x = c then eatNameCI cs xs else none

def parseMonthName : List (List Char × Nat) → List Char → Option (Nat × List Char)
  | [], _ => none
  | (nm, v) :: rest, s =>
    match eatNameCI nm s with
    | some r => some (v, r)
    | none => parseMonthName rest s

def monthsFull : List (List Char × Nat) :=
  [(("january").data, 1), (("february").data, 2), (("march").data, 3),
   (("april").data, 4), (("may").data, 5), (("june").data, 6),
   (("july").data, 7), (("august").data, 8), (("september").data, 9),
   (("october").data, 10), (("november").data, 11), (("december").data, 12)]

def monthsAbbr : List (List Char × Nat) :=
  [(("jan").data, 1), (("feb").data, 2), (("mar").data, 3), (("apr").data, 4),
   (("may").data, 5), (("jun").data, 6), (("jul").data, 7), (("aug").data, 8),
   (("sep").data, 9), (("oct").data, 10), (("nov").data, 11), (("dec").data, 12)]

/-- One directive or literal of a `strptime` format string. -/
inductive Tok
  | year
  | mon
  | day
  | monFull
  | monAbbr
  | lit (c : Char)
  | ws
deriving DecidableEq

/-- Partial date being assembled by the interpreter. -/
structure PD where
  y : Option Nat
  m : Option Nat
  d : Option Nat
deriving DecidableEq

/-- Run a format (as a token list) over the input; fails if any token
fails or if unconverted data remains. -/
def runToks : List Tok → List Char → PD → Option PD
  | [], s, pd => if s.isEmpty then some pd else none
  | t :: ts, s, pd =>
    match t with
    | Tok.year =>
      match parse4Y s with
      | some (y, r) => runToks ts r ⟨some y, pd.m, pd.d⟩
      | none => none
    | Tok.mon =>
      match parseMon s with
      | some (m, r) => runToks ts r ⟨pd.y, some m, pd.d⟩
      | none => none
    | Tok.day =>
      match parseDay s with
      | some (d, r) => runToks ts r ⟨pd.y, pd.m, some d⟩
      | none => none
    | Tok.monFull =>
      match parseMonthName monthsFull s with
      | some (m, r) => runToks ts r ⟨pd.y, some m, pd.d⟩
      | none => none
    | Tok.monAbbr =>
      match parseMonthName monthsAbbr s with
      | some (m, r) => runToks ts r ⟨pd.y, some m, pd.d⟩
      | none => none
    | Tok.lit c =>
      match s with
      | x :: xs => if x = c then runToks ts xs pd else none
      | [] => none
    | Tok.ws =>
      match s with
      | x :: xs => if pyWs x = true then runToks ts (xs.dropWhile pyWs) pd else none
      | [] => none

/-- The nine members of `date_formats` (lines 256-266), in order. -/
inductive DateFmt
  | ymdDash
  | mdySlash
  | mdyDash
  | dmySlash
  | ymdSlash
  | bigBdy
  | abbrBdy
  | dBigY
  | dAbbrY
deriving DecidableEq

def fmtToks : DateFmt → List Tok
  | DateFmt.ymdDash => [Tok.year, Tok.lit ('-'), Tok.mon, Tok.lit ('-'), Tok.day]
  | DateFmt.mdySlash => [Tok.mon, Tok.lit ('/'), Tok.day, Tok.lit ('/'), Tok.year]
  | DateFmt.mdyDash => [Tok.mon, Tok.lit ('-'), Tok.day, Tok.lit ('-'), Tok.year]
  | DateFmt.dmySlash => [Tok.day, Tok.lit ('/'), Tok.mon, Tok.lit ('/'), Tok.year]
  | DateFmt.ymdSlash => [Tok.year, Tok.lit ('/'), Tok.mon, Tok.lit ('/'), Tok.day]
  | DateFmt.bigBdy => [Tok.monFull, Tok.ws, Tok.day, Tok.lit (','), Tok.ws, Tok.year]
  | DateFmt.abbrBdy => [Tok.monAbbr, Tok.ws, Tok.day, Tok.lit (','), Tok.ws, Tok.year]
  | DateFmt.dBigY => [Tok.day, Tok.ws, Tok.monFull, Tok.ws, Tok.year]
  | DateFmt.dAbbrY => [Tok.day, Tok.ws, Tok.monAbbr, Tok.ws, Tok.year]

def fmtList : List DateFmt :=
  [DateFmt.ymdDash, DateFmt.mdySlash, DateFmt.mdyDash, DateFmt.dmySlash,
   DateFmt.ymdSlash, DateFmt.bigBdy, DateFmt.abbrBdy, DateFmt.dBigY, DateFmt.dAbbrY]

/-- Tokens that can never match when the next input character is a digit:
every format in `fmtList` contains one, which is why a pure-digit string
(such as a canonical "YYYYMMDD" output) matches none of the formats. -/
def tokBreaksDigits : Tok → Bool
  | Tok.monFull => true
  | Tok.monAbbr => true
  | Tok.lit c => !isAsciiDigit c
  | Tok.ws => true
  | _ => false

/-- `datetime.strptime(date_str, fmt)`: match, then validate the calendar
date as the `datetime` constructor does. -/
def strptime (f : DateFmt) (s : List Char) : Option (Nat × Nat × Nat) :=
  match runToks (fmtToks f) s ⟨none, none, none⟩ with
  | some ⟨some y, some m, some d⟩ =>
    if 1 ≤ y ∧ d ≤ daysInMonth y m then some (y, m, d) else none
  | _ => none

def digitChar (n : Nat) : Char :=
  match n with
  | 0 => '0'
  | 1 => '1'
  | 2 => '2'
  | 3 => '3'
  | 4 => '4'
  | 5 => '5'
  | 6 => '6'
  | 7 => '7'
  | 8 => '8'
  | 9 => '9'
  | _ => '0'

def pad2 (n : Nat) : List Char := [digitChar (n / 10 % 10), digitChar (n % 10)]

def pad4 (n : Nat) : List Char :=
  [digitChar (n / 1000 % 10), digitChar (n / 100 % 10), digitChar (n / 10 % 10), digitChar (n % 10)]

/-- `date_obj.strftime("%Y%m%d")` for a year at most 9999. -/
def renderYmd (y m d : Nat) : List Char := pad4 y ++ pad2 m ++ pad2 d

/-- The loop over `date_formats` (lines 268-277): a successful parse whose
year falls outside `[1900, now.year+10]` falls through to the next format. -/
def tryFormats (nowYear : Nat) : List DateFmt → List Char → Option String
  | [], _ => none
  | f :: fs, s =>
    match strptime f s with
    | some (y, m, d) =>
      if y < 1900 ∨ nowYear + 10 < y then tryFormats nowYear fs s
      else some (String.mk (renderYmd y m d))
    | none => tryFormats nowYear fs s

/-- `\d{2}` / `\d{4}` of the loose pattern. -/
def parse2D : List Char → Option (Nat × List Char)
  | a :: b :: rest =>
    if isAsciiDigit a = true ∧ isAsciiDigit b = true then
      some (digitVal a * 10 + digitVal b, rest)
    else none
  | _ => none

/-- `-?`: consume an optional dash (greedy, and deterministic because the
following token only matches digits). -/
def skipDash : List Char → List Char
  | c :: r => if c = '-' then r else c :: r
  | [] => []

/-- Try the pattern `(\d{4})-?(\d{2})-?(\d{2})` at the current position. -/
def matchYmdAt (s : List Char) : Option (Nat × Nat × Nat) :=
  match parse4Y s with
  | none => none
  | some (y, r1) =>
    match parse2D (skipDash r1) with
    | none => none
    | some (m, r2) =>
      match parse2D (skipDash r2) with
      | none => none
      | some (d, _) => some (y, m, d)

/-- `re.search` for that pattern: leftmost match wins. -/
def searchYmd : List Char → Option (Nat × Nat × Nat)
  | [] => none
  | c :: rest =>
    match matchYmdAt (c :: rest) with
    | some v => some v
    | none => searchYmd rest

/-- invoice_renamer.py `format_date(date_str)`, with `datetime.now().year`
made an explicit parameter `nowYear`. -/
def format_date (nowYear : Nat) (s : String) : String :=
  if s = "" then ("00000000")
  else
    match tryFormats nowYear fmtList s.data with
    | some out => out
    | none =>
      match searchYmd s.data with
      | some (y, m, d) =>
        if 1 ≤ m ∧ m ≤ 12 ∧ 1 ≤ d ∧ d ≤ 31 ∧ 1900 ≤ y ∧ y ≤ nowYear + 10 ∧ d ≤ daysInMonth y m
        then String.mk (renderYmd y m d)
        else ("00000000")
      | none => ("00000000")

/-- `format_date` applied to the possibly-missing `invoice_date` field
(`if not date_str: return "00000000"`). -/
def format_date_opt (nowYear : Nat) : Option String → String
  | none => ("00000000")
  | some s => format_date nowYear s

/-! ## extract_invoice_info (invoice_renamer.py lines 86-211) -/

/-- Python truthiness of an optional string (`if x:`): present and
non-empty. -/
def optTruthy : Option String → Bool
  | none => false
  | some s => !(s = "")

/-- The seven fields of the JSON record the extraction prompt requests.
`dict.get` on a missing key yields `None`, so every field is optional. -/
structure RawInfo where
  business_name : Option String
  document_type : Option String
  invoice_date : Option String
  invoice_number : Option String
  patient_animal_name : Option String
  account_type : Option String
  account_last_4 : Option String
deriving DecidableEq

/-- A Python value as `json.loads` can produce it: `None`, a boolean, a
number, a string, a list, or an object.  Object entries are listed in
insertion order with unique keys, as `json.loads` returns them. -/
inductive PyVal
  | pyNone
  | pyBool (b : Bool)
  | pyNum (n : Int)
  | pyStr (s : String)
  | pyList (elems : List PyVal)
  | pyDict (entries : List (String × PyVal))

/-- Python truthiness of a value (`if x:`). -/
def pyTruthyVal : PyVal → Bool
  | PyVal.pyNone => false
  | PyVal.pyBool b => b
  | PyVal.pyNum n => !(n == 0)
  | PyVal.pyStr s => !(s == "")
  | PyVal.pyList elems => !elems.isEmpty
  | PyVal.pyDict entries => !entries.isEmpty

/-- `dict.get(k)` on a parsed object: the stored value, or `None` when
the key is missing. -/
def pyDictGet (entries : List (String × PyVal)) (k : String) : PyVal :=
  match entries.find? (fun e => e.1 == k) with
  | some e => e.2
  | none => PyVal.pyNone

/-- `d[k] = v` on a parsed object: replace the existing binding in place,
or append a new one (insertion order preserved). -/
def pyDictSet (entries : List (String × PyVal)) (k : String) (v : PyVal) :
    List (String × PyVal) :=
  if entries.any (fun e => e.1 == k) then
    entries.map (fun e => if e.1 == k then (e.1, v) else e)
  else entries ++ [(k, v)]

/-- Result of a call to `extract_invoice_info`: the returned record, or
an exception escaping the function — the `except` at line 197 catches
only `json.JSONDecodeError`, so an `AttributeError` raised inside the
`try` block propagates to the caller. -/
inductive ExtractOutcome
  | ok (info : List (String × PyVal))
  | raises (err : String)

/-- Outcome of the `call_grok_api` subprocess plus the two-attempt JSON
parse of lines 169-178: the subprocess raised
(`CalledProcessError`/`FileNotFoundError`), the attempted `json.loads`
raised `JSONDecodeError`, or it succeeded with a Python value.  The
anchored-fragment attempt at line 172 can only yield an object or a
decode error (the fragment starts with a brace), while the
whole-response fallback at line 178 can yield any JSON value. -/
inductive BackendOutcome
  | callFailed
  | parseFailed
  | parsed (parsed_info : PyVal)

/-- The fallback record of lines 159-167 and 203-211. -/
def fallback_record : List (String × PyVal) :=
  [(("business_name"), PyVal.pyStr ("Unknown")),
   (("document_type"), PyVal.pyStr ("Document")),
   (("invoice_date"), PyVal.pyNone),
   (("invoice_number"), PyVal.pyNone),
   (("patient_animal_name"), PyVal.pyNone),
   (("account_type"), PyVal.pyNone),
   (("account_last_4"), PyVal.pyNone)]

/-- Lines 192-194: default `document_type` to "Document" when the field
is absent or falsy. -/
def default_document_type (entries : List (String × PyVal)) : List (String × PyVal) :=
  if pyTruthyVal (pyDictGet entries ("document_type")) = true then entries
  else pyDictSet entries ("document_type") (PyVal.pyStr ("Document"))

/-- Lines 180-196, run on the value `json.loads` produced.  A non-object
value raises `AttributeError` at line 184 (`parsed_info.get` on a value
with no `get`).  On an object, line 187 evaluates
`account_type_value and account_type_value.lower() == 'portfolio'`:
`and` short-circuits, so `.lower()` is reached exactly when the value is
truthy, and raises `AttributeError` unless the value is a string (a
string never raises there, truthy or not); the resulting `is_portfolio`
only feeds a warning log.  After that the record is returned with
`document_type` defaulted. -/
def extract_invoice_info_parsed (parsed_info : PyVal) : ExtractOutcome :=
  match parsed_info with
  | PyVal.pyDict entries =>
    if pyTruthyVal (pyDictGet entries ("account_type")) = true then
      match pyDictGet entries ("account_type") with
      | PyVal.pyStr _ => ExtractOutcome.ok (default_document_type entries)
      | _ => ExtractOutcome.raises ("AttributeError")
    else ExtractOutcome.ok (default_document_type entries)
  | _ => ExtractOutcome.raises ("AttributeError")

/-- `extract_invoice_info` (lines 86-211) as a function of the backend
outcome: subprocess failures and JSON decode errors converge to the
fallback record, while a successfully decoded value is processed by the
body of the `try` block, which can itself raise. -/
def extract_invoice_info : BackendOutcome → ExtractOutcome
  | BackendOutcome.callFailed => ExtractOutcome.ok fallback_record
  | BackendOutcome.parseFailed => ExtractOutcome.ok fallback_record
  | BackendOutcome.parsed v => extract_invoice_info_parsed v

/-! ## Field preprocessing in rename_invoice (lines 310-336) -/

def digitsOnly (s : String) : String := String.mk (s.data.filter isAsciiDigit)

def strTakeRight (s : String) (n : Nat) : String :=
  String.mk (s.data.drop (s.data.length - n))

def proc_business (info : RawInfo) : String :=
  clean_filename info.business_name (some 4)

def proc_document_type (info : RawInfo) : String :=
  if optTruthy info.document_type = true then clean_filename info.document_type none
  else ("Document")

def proc_invoice_date (nowYear : Nat) (info : RawInfo) : String :=
  format_date_opt nowYear info.invoice_date

/-- Lines 314-323: keep only digits, reduce to the trailing four when long
enough, then clean; an empty digit string becomes `None`. -/
def proc_invoice_number (info : RawInfo) : Option String :=
  if optTruthy info.invoice_number = true then
    let cleanedDigits := digitsOnly ((info.invoice_number).getD (""))
    let reduced := if cleanedDigits.length ≥ 4 then strTakeRight cleanedDigits 4 else cleanedDigits
    if reduced = "" then none else some (clean_filename (some reduced) none)
  else none

def proc_patient (info : RawInfo) : Option String :=
  if optTruthy info.patient_animal_name = true then
    some (clean_filename info.patient_animal_name none)
  else none

def proc_account_type (info : RawInfo) : Option String :=
  if optTruthy info.account_type = true then
    some (clean_filename info.account_type none)
  else none

/-- Lines 326-336, same digit reduction as the invoice number. -/
def proc_account_last_4 (info : RawInfo) : Option String :=
  if optTruthy info.account_last_4 = true then
    let cleanedDigits := digitsOnly ((info.account_last_4).getD (""))
    let reduced := if cleanedDigits.length ≥ 4 then strTakeRight cleanedDigits 4 else cleanedDigits
    if reduced = "" then none else some (clean_filename (some reduced) none)
  else none

/-! ## Filename synthesis (lines 354-379) -/

/-- The `filename_parts` construction. -/
def synthesize_parts (business_name document_type : String)
    (account_type account_last_4 patient_animal_name invoice_number : Option String)
    (invoice_date : String) : List String :=
  let base :=
    if optTruthy account_type = true then
      (if asciiLowerStr (account_type.getD ("")) = "portfolio" ∨ optTruthy account_last_4 = false then
        [business_name, account_type.getD (""), document_type]
      else
        [business_name, account_type.getD (""), document_type, account_last_4.getD ("")])
    else [business_name, document_type]
  let base :=
    if optTruthy patient_animal_name = true then
      base ++ [("- ") ++ patient_animal_name.getD ("")]
    else base
  let base :=
    if optTruthy invoice_number = true ∧ optTruthy account_type = false then
      base ++ [invoice_number.getD ("")]
    else base
  if invoice_date ≠ "" ∧ invoice_date ≠ "00000000" then base ++ [invoice_date] else base

/-- Full synthesis from a parsed record, mirroring lines 310-377. -/
def synthesize_filename_parts (nowYear : Nat) (info : RawInfo) : List String :=
  synthesize_parts (proc_business info) (proc_document_type info)
    (proc_account_type info) (proc_account_last_4 info)
    (proc_patient info) (proc_invoice_number info)
    (proc_invoice_date nowYear info)

def new_filename_of (nowYear : Nat) (info : RawInfo) (file_ext : String) : String :=
  joinSpace (synthesize_filename_parts nowYear info) ++ file_ext

/-! ## Path helpers (posixpath semantics for the operations used) -/

def afterLastSlash (l : List Char) : List Char :=
  (l.reverse.takeWhile (fun c => !(c = '/'))).reverse

/-- `os.path.basename`. -/
def basename (p : String) : String := String.mk (afterLastSlash p.data)

/-- `os.path.dirname`. -/
def dirname (p : String) : String :=
  let revHead := p.data.reverse.dropWhile (fun c => !(c = '/'))
  match revHead with
  | [] => ("")
  | l =>
    if l.all (fun c => c = '/') then String.mk l.reverse
    else String.mk ((l.dropWhile (fun c => c = '/')).reverse)

/-- `os.path.join` for two components. -/
def joinPath (a b : String) : String :=
  if b.data.head? = some '/' then b
  else if a = "" then b
  else if a.data.getLast? = some '/' then a ++ b
  else a ++ ("/") ++ b

/-- Index of the last occurrence of `c`, if any (`str.rfind`). -/
def rfindChar (c : Char) (l : List Char) : Option Nat :=
  match l.reverse.findIdx? (fun x => x = c) with
  | none => none
  | some i => some (l.length - 1 - i)

/-- `os.path.splitext`: split off the extension at the last dot, provided
the dot comes after the last slash and the basename does not consist of
leading dots only. -/
def splitext (p : String) : String × String :=
  let l := p.data
  match rfindChar ('.') l with
  | none => (p, (""))
  | some di =>
    let sepOk :=
      match rfindChar ('/') l with
      | none => true
      | some si => decide (si < di)
    let start :=
      match rfindChar ('/') l with
      | none => 0
      | some si => si + 1
    if sepOk = true ∧ ((l.drop start).take (di - start)).any (fun c => !(c = '.')) then
      (String.mk (l.take di), String.mk (l.drop di))
    else (p, (""))

/-! ## Collision resolution (lines 390-424) -/

/-- Build the unique variant for the current counter (lines 397-415): when
the name was constructed with a valid date and still ends with it, insert
the counter just before the date; otherwise append the counter to the
base name. -/
def uniqueVariant (new_filename invoice_date file_ext : String) (counter : Nat) : String :=
  let base_name := (splitext new_filename).1
  let original_had_date := invoice_date ≠ "" ∧ invoice_date ≠ "00000000"
  if original_had_date then
    (if strEndsWith base_name invoice_date = true then
      let name_without_date := pyRstrip (strDropRight base_name invoice_date.length)
      name_without_date ++ (" ") ++ toString counter ++ (" ") ++ invoice_date ++ file_ext
    else base_name ++ (" ") ++ toString counter ++ file_ext)
  else base_name ++ (" ") ++ toString counter ++ file_ext

/-- The `while os.path.exists(...)` loop.  The filesystem is a predicate
`fsE` and `os.path.abspath` an abstract function `ap`.  The `fuel`
argument only makes the recursion structural; starting from
`fuel = 100, counter = 2` the fuel can never run out before the
`counter > 100` abort fires. -/
def collisionLoop (fsE : String → Bool) (ap : String → String)
    (file_path target_dir new_filename invoice_date file_ext : String) :
    Nat → Nat → String → Option String
  | fuel, counter, path =>
    if fsE path = true ∧ ap path ≠ ap file_path then
      (if counter + 1 > 100 then none
       else
        match fuel with
        | 0 => none
        | fuel' + 1 =>
          collisionLoop fsE ap file_path target_dir new_filename invoice_date file_ext
            fuel' (counter + 1)
            (joinPath target_dir (uniqueVariant new_filename invoice_date file_ext counter)))
    else some path

def resolveCollision (fsE : String → Bool) (ap : String → String)
    (file_path target_dir new_filename invoice_date file_ext : String) : Option String :=
  collisionLoop fsE ap file_path target_dir new_filename invoice_date file_ext
    100 2 (joinPath target_dir new_filename)

/-! ## Filesystem model and the case-only two-step rename (lines 437-489) -/

/-- A filesystem as an association list from paths to file contents. -/
def fsLookup {α : Type} (fs : List (String × α)) (p : String) : Option α :=
  match fs.find? (fun e => e.1 = p) with
  | some e => some e.2
  | none => none

def fsSet {α : Type} (p : String) (c : α) (fs : List (String × α)) : List (String × α) :=
  (p, c) :: fs.filter (fun e => !(e.1 = p))

def fsDelete {α : Type} (p : String) (fs : List (String × α)) : List (String × α) :=
  fs.filter (fun e => !(e.1 = p))

/-- `os.rename(src, dst)`: move the content stored at `src` to `dst`. -/
def fsRename {α : Type} (src dst : String) (fs : List (String × α)) : List (String × α) :=
  match fsLookup fs src with
  | some c => fsSet dst c (fsDelete src fs)
  | none => fs

/-- Lines 466-472: the temporary path used by the case-only rename, built
from the first 8 hex digits of `md5(f"{file_path}->{new_file_path}")`.
`md5hex` stands for `hashlib.md5(...).hexdigest()`. -/
def case_only_temp (md5hex : String → String) (file_path new_file_path : String) : String :=
  let file_base := (splitext file_path).1
  let fext := (splitext file_path).2
  let unique_hash := strTake (md5hex (file_path ++ ("->") ++ new_file_path)) 8
  file_base ++ (".tmp_") ++ unique_hash ++ fext

/-- Lines 477-479: rename to the temporary name, then to the final name. -/
def case_only_rename {α : Type} (md5hex : String → String)
    (file_path new_file_path : String) (fs : List (String × α)) : List (String × α) :=
  let temp_path := case_only_temp md5hex file_path new_file_path
  fsRename temp_path new_file_path (fsRename file_path temp_path fs)

/-! ## The rename/move tail of rename_invoice (lines 379-510) -/

inductive FsAction
  | mkdirs (dir : String)
  | rename (src dst : String)
  | move (src dst : String)
deriving DecidableEq

structure RunResult where
  actions : List FsAction
  messages : List String
  success : Bool
deriving DecidableEq

/-- Everything rename_invoice does after computing `new_filename`
(line 379): target-directory handling, collision resolution, the dry-run
early return, the existing-target case analysis, and the final
rename/move.  `actions` records filesystem mutations, `messages` the
printed action descriptions. -/
def rename_tail (fsE : String → Bool) (ap : String → String) (md5hex : String → String)
    (dry_run : Bool) (move_to : Option String)
    (file_path new_filename invoice_date file_ext : String) : RunResult :=
  let file_dir := dirname file_path
  let target_dir := if optTruthy move_to = true then move_to.getD ("") else file_dir
  let mkActions :=
    if optTruthy move_to = true ∧ fsE (move_to.getD ("")) = false then
      (if dry_run then [] else [FsAction.mkdirs (move_to.getD (""))])
    else []
  match resolveCollision fsE ap file_path target_dir new_filename invoice_date file_ext with
  | none =>
    ⟨mkActions, [("Error: Too many files with similar names exist")], false⟩
  | some new_file_path =>
    let nf := basename new_file_path
    if dry_run then
      ⟨mkActions,
       [if optTruthy move_to = true then
          ("Would rename ") ++ basename file_path ++ (" to ") ++ nf
            ++ (" and move to ") ++ basename target_dir
        else ("Would rename ") ++ basename file_path ++ (" to ") ++ nf], true⟩
    else
      if fsE new_file_path = true then
        let current_filename := basename file_path
        let target_filename := basename new_file_path
        if current_filename = target_filename then
          (if optTruthy move_to = true ∧ target_dir ≠ file_dir then
            (if dry_run = false then
              ⟨mkActions ++ [FsAction.move file_path new_file_path],
               [("Moved ") ++ target_filename ++ (" to ") ++ basename target_dir], true⟩
            else
              ⟨mkActions,
               [("Would move ") ++ target_filename ++ (" to ") ++ basename target_dir], true⟩)
          else
            ⟨mkActions, [("File already correctly named: ") ++ target_filename], true⟩)
        else if asciiLowerStr current_filename = asciiLowerStr target_filename then
          let temp_path := case_only_temp md5hex file_path new_file_path
          ⟨mkActions ++ [FsAction.rename file_path temp_path, FsAction.rename temp_path new_file_path],
           [if optTruthy move_to = true then
              ("Renamed ") ++ current_filename ++ (" to ") ++ target_filename
                ++ (" and moved to ") ++ basename target_dir
            else ("Renamed ") ++ current_filename ++ (" to ") ++ target_filename], true⟩
        else
          ⟨mkActions, [("Error: Target file ") ++ new_file_path ++ (" already exists")], false⟩
      else
        if optTruthy move_to = true then
          ⟨mkActions ++ [FsAction.move file_path new_file_path],
           [("Renamed ") ++ basename file_path ++ (" to ") ++ basename new_file_path
              ++ (" and moved to ") ++ basename target_dir], true⟩
        else
          ⟨mkActions ++ [FsAction.rename file_path new_file_path],
           [("Renamed ") ++ basename file_path ++ (" to ") ++ basename new_file_path], true⟩

/-! ## grok.py: size-constrained encoder (lines 39-194)

Raw image bytes are `List Nat` (each value below 256).  `base64.b64encode`
is embedded as `b64chars`; `b64decodeChars` is its inverse, used to state
that the payload is not altered.  The `convert` subprocess is an explicit
oracle from requested parameters to optional output bytes. -/

def MAX_RAW_SIZE : Nat := 7500000

def MAX_BASE64_SIZE : Nat := 10000000

def b64Alphabet : List Char :=
  ['A', 'B', 'C', 'D', 'E', 'F', 'G', 'H', 'I', 'J', 'K', 'L', 'M',
   'N', 'O', 'P', 'Q', 'R', 'S', 'T', 'U', 'V', 'W', 'X', 'Y', 'Z',
   'a', 'b', 'c', 'd', 'e', 'f', 'g', 'h', 'i', 'j', 'k', 'l', 'm',
   'n', 'o', 'p', 'q', 'r', 's', 't', 'u', 'v', 'w', 'x', 'y', 'z',
   '0', '1', '2', '3', '4', '5', '6', '7', '8', '9', '+', '/']

def sextetChar (n : Nat) : Char := b64Alphabet.getD n 'A'

def sextetVal (c : Char) : Option Nat := b64Alphabet.findIdx? (fun x => x = c)

/-- `base64.b64encode` over byte lists, with `=` padding. -/
def b64chars : List Nat → List Char
  | a :: b :: c :: rest =>
    sextetChar (a / 4) :: sextetChar (a % 4 * 16 + b / 16) ::
    sextetChar (b % 16 * 4 + c / 64) :: sextetChar (c % 64) :: b64chars rest
  | [a, b] => [sextetChar (a / 4), sextetChar (a % 4 * 16 + b / 16), sextetChar (b % 16 * 4), '=']
  | [a] => [sextetChar (a / 4), sextetChar (a % 4 * 16), '=', '=']
  | [] => []

def b64decodeSextets : List Nat → List Nat
  | s1 :: s2 :: s3 :: s4 :: rest =>
    (s1 * 4 + s2 / 16) :: (s2 % 16 * 16 + s3 / 4) :: (s3 % 4 * 64 + s4) :: b64decodeSextets rest
  | [s1, s2, s3] => [s1 * 4 + s2 / 16, s2 % 16 * 16 + s3 / 4]
  | [s1, s2] => [s1 * 4 + s2 / 16]
  | _ => []

/-- `base64.b64decode`: drop padding, regroup sextets into bytes. -/
def b64decodeChars (cs : List Char) : List Nat :=
  b64decodeSextets (cs.filterMap sextetVal)

/-- Parameters of one ImageMagick `convert` invocation in
`compress_image`. -/
inductive ConvertSpec
  | quality (q : Nat)
  | resize (percent : Nat) (q : Nat)
deriving DecidableEq

def COMPRESSED_FORMATS : List String :=
  [(".png"), (".bmp"), (".tiff"), (".tif"), (".pbm"), (".ppm"), (".pgm")]

/-- The ordered reduction attempts of `compress_image` (lines 107-187):
quality reduction first (parameterised by source format), then progressive
downscaling at quality 70.  Each element is the byte output of the
corresponding `convert` run, or `none` on tool failure/timeout. -/
def compressAttempts (convert : ConvertSpec → Option (List Nat)) (file_ext : String) :
    List (Option (List Nat)) :=
  (if COMPRESSED_FORMATS.contains file_ext = true then
    [convert (ConvertSpec.quality 85), convert (ConvertSpec.quality 70),
     convert (ConvertSpec.quality 50), convert (ConvertSpec.quality 30)]
   else if file_ext = ".jpg" ∨ file_ext = ".jpeg" then
    [convert (ConvertSpec.quality 70), convert (ConvertSpec.quality 50),
     convert (ConvertSpec.quality 30), convert (ConvertSpec.quality 20)]
   else [])
  ++ [convert (ConvertSpec.resize 75 70), convert (ConvertSpec.resize 50 70),
      convert (ConvertSpec.resize 25 70)]

/-- The first-success-wins evaluation of the attempt chain: an attempt
succeeds only if its output fits `max_size`; otherwise (or on tool
failure) the next attempt is tried; `none` when the chain is exhausted. -/
def compress_image (attempts : List (Option (List Nat))) (max_size : Nat) : Option (List Nat) :=
  match attempts with
  | [] => none
  | none :: rest => compress_image rest max_size
  | some data :: rest =>
    if data.length ≤ max_size then some data else compress_image rest max_size

/-- `process_image_file` (lines 57-92) up to the base64 payload: compress
when over the raw ceiling (exiting when compression fails), encode, and
enforce the base64 ceiling.  `none` models `sys.exit(1)`. -/
def process_image_file_b64 (convert : ConvertSpec → Option (List Nat))
    (file_ext : String) (file_data : List Nat) : Option (List Char) :=
  let step1 :=
    if file_data.length > MAX_RAW_SIZE then
      compress_image (compressAttempts convert file_ext) MAX_RAW_SIZE
    else some file_data
  match step1 with
  | none => none
  | some d =>
    let base64_data := b64chars d
    if base64_data.length > MAX_BASE64_SIZE then none else some base64_data

/-- The `image_url` part returned to the API caller. -/
structure ImageUrlPart where
  url : String
  detail : String
deriving DecidableEq

def process_image_file (convert : ConvertSpec → Option (List Nat)) (file_ext : String)
    (mime_type : Option String) (file_data : List Nat) : Option ImageUrlPart :=
  match process_image_file_b64 convert file_ext file_data with
  | none => none
  | some base64_data =>
    some ⟨("data:") ++ mime_type.getD ("image/jpeg") ++ (";base64,") ++ String.mk base64_data,
          ("high")⟩

/-! ## grok.py: request construction in call_grok_api (lines 562-626) -/

def DEFAULT_MODEL : String := ("grok-4-fast-reasoning")

def VISION_MODEL : String := ("grok-2-vision-1212")

/-- What `read_file_content` produced for the attached file. -/
inductive FileContent
  | text (content : String)
  | image (part : ImageUrlPart)
  | multiImage (parts : List ImageUrlPart)
deriving DecidableEq

inductive ContentPart
  | textPart (text : String)
  | imagePart (part : ImageUrlPart)
deriving DecidableEq

inductive MessageContent
  | plain (s : String)
  | parts (ps : List ContentPart)
deriving DecidableEq

/-- The single user message of the request. -/
structure GrokRequest where
  content : MessageContent
  model : String
  stream : Bool
deriving DecidableEq

def isImagePayload : FileContent → Bool
  | FileContent.text _ => false
  | FileContent.image _ => true
  | FileContent.multiImage _ => true

/-- The request `call_grok_api` builds (lines 580-626): text content is
appended to the prompt; image content becomes a multimodal part list, and
when `auto_vision` is set and the caller kept the default text model the
model is force-switched to the vision model (lines 595-597). -/
def build_grok_request (prompt model : String) (file_content : Option FileContent)
    (auto_vision : Bool) : GrokRequest :=
  match file_content with
  | none => ⟨MessageContent.plain prompt, model, false⟩
  | some (FileContent.text c) =>
    ⟨MessageContent.plain (prompt ++ ("\n\nFile content:\n") ++ c), model, false⟩
  | some (FileContent.image p) =>
    let model := if auto_vision = true ∧ model = DEFAULT_MODEL then VISION_MODEL else model
    ⟨MessageContent.parts [ContentPart.textPart prompt, ContentPart.imagePart p], model, false⟩
  | some (FileContent.multiImage ps) =>
    let model := if auto_vision = true ∧ model = DEFAULT_MODEL then VISION_MODEL else model
    ⟨MessageContent.parts (ContentPart.textPart prompt :: ps.map ContentPart.imagePart),
     model, false⟩

/-! ## Helper lemmas -/

theorem fsLookup_fsSet {α : Type} (p : String) (c : α) (fs : List (String × α)) :
    fsLookup (fsSet p c fs) p = some c := by
  simp [fsLookup, fsSet]

theorem fsRename_lookup_dst {α : Type} (src dst : String) (fs : List (String × α)) (c : α)
    (h : fsLookup fs src = some c) : fsLookup (fsRename src dst fs) dst = some c := by
  rw [fsRename, h]
  exact fsLookup_fsSet dst c (fsDelete src fs)

theorem compress_image_le (max_size : Nat) :
    ∀ (attempts : List (Option (List Nat))) (out : List Nat),
      compress_image attempts max_size = some out → out.length ≤ max_size
  | [], out, h => by simp [compress_image] at h
  | none :: rest, out, h =>
    compress_image_le max_size rest out (by simpa [compress_image] using h)
  | some d :: rest, out, h => by
    rw [compress_image] at h
    by_cases hd : d.length ≤ max_size
    · rw [if_pos hd] at h
      cases h
      exact hd
    · rw [if_neg hd] at h
      exact compress_image_le max_size rest out h

theorem b64chars_length : ∀ l : List Nat, (b64chars l).length = 4 * ((l.length + 2) / 3)
  | [] => rfl
  | [_] => by simp [b64chars]
  | [_, _] => by simp [b64chars]
  | _ :: _ :: _ :: rest => by
    have ih := b64chars_length rest
    simp only [b64chars, List.length_cons, ih]
    omega

theorem sextetVal_sextetChar : ∀ v : Nat, v < 64 → sextetVal (sextetChar v) = some v := by decide

theorem sextetVal_pad : sextetVal '=' = none := by decide

theorem b64_roundtrip : ∀ l : List Nat, (∀ x ∈ l, x < 256) → b64decodeChars (b64chars l) = l
  | [], _ => rfl
  | [a], h => by
    have ha : a < 256 := h a (by simp)
    have h1 := sextetVal_sextetChar (a / 4) (by omega)
    have h2 := sextetVal_sextetChar (a % 4 * 16) (by omega)
    simp only [b64chars, b64decodeChars, List.filterMap_cons, h1, h2, sextetVal_pad,
      List.filterMap_nil, b64decodeSextets]
    simp only [List.cons.injEq, and_true]
    omega
  | [a, b], h => by
    have ha : a < 256 := h a (by simp)
    have hb : b < 256 := h b (by simp)
    have h1 := sextetVal_sextetChar (a / 4) (by omega)
    have h2 := sextetVal_sextetChar (a % 4 * 16 + b / 16) (by omega)
    have h3 := sextetVal_sextetChar (b % 16 * 4) (by omega)
    simp only [b64chars, b64decodeChars, List.filterMap_cons, h1, h2, h3, sextetVal_pad,
      List.filterMap_nil, b64decodeSextets]
    simp only [List.cons.injEq, and_true]
    exact ⟨by omega, by omega⟩
  | a :: b :: c :: rest, h => by
    have ha : a < 256 := h a (by simp)
    have hb : b < 256 := h b (by simp)
    have hc : c < 256 := h c (by simp)
    have ih := b64_roundtrip rest (fun x hx => h x (by simp [hx]))
    have h1 := sextetVal_sextetChar (a / 4) (by omega)
    have h2 := sextetVal_sextetChar (a % 4 * 16 + b / 16) (by omega)
    have h3 := sextetVal_sextetChar (b % 16 * 4 + c / 64) (by omega)
    have h4 := sextetVal_sextetChar (c % 64) (by omega)
    simp only [b64decodeChars] at ih ⊢
    simp only [b64chars, List.filterMap_cons, h1, h2, h3, h4, b64decodeSextets, ih]
    simp only [List.cons.injEq]
    exact ⟨by omega, by omega, by omega, trivial⟩

theorem dropWhile_eq_nil_of_all {α : Type} (p : α → Bool) :
    ∀ l : List α, l.all p = true → l.dropWhile p = []
  | [], _ => rfl
  | a :: l, h => by
    simp only [List.all_cons, Bool.and_eq_true] at h
    simp [List.dropWhile, h.1, dropWhile_eq_nil_of_all p l h.2]

theorem dropTrailingStop_all (ws : List String)
    (h : ws.all (fun w => trailing_words.contains (asciiLowerStr w)) = true) :
    dropTrailingStop ws = [] := by
  have hrev : ws.reverse.all (fun w => trailing_words.contains (asciiLowerStr w)) = true := by
    rw [List.all_eq_true] at h ⊢
    intro x hx
    exact h x (List.mem_reverse.mp hx)
  rw [dropTrailingStop, dropWhile_eq_nil_of_all _ _ hrev]
  rfl

theorem capWords_empty (n : Nat) : capWords n ("") = "" := by
  have h0 : pySplit ("") = [] := rfl
  rw [capWords, h0]
  simp

theorem applyLimit_empty (n : Nat) : applyLimit n ("") = "" := by
  have h0 : pySplit ("") = [] := rfl
  rw [applyLimit, capWords_empty, h0]
  simp [dropTrailingStop]

theorem synthesize_parts_decomp (bn dt : String) (acct l4 pat inv : Option String)
    (date : String) :
    synthesize_parts bn dt acct l4 pat inv date
      = [bn] ++ (if optTruthy acct = true then [acct.getD ("")] else [])
        ++ [dt]
        ++ (if optTruthy acct = true ∧ asciiLowerStr (acct.getD ("")) ≠ "portfolio"
              ∧ optTruthy l4 = true
            then [l4.getD ("")] else [])
        ++ (if optTruthy pat = true then [("- ") ++ pat.getD ("")] else [])
        ++ (if optTruthy inv = true ∧ optTruthy acct = false then [inv.getD ("")] else [])
        ++ (if date ≠ "" ∧ date ≠ "00000000" then [date] else []) := by
  rw [synthesize_parts]
  cases hA : optTruthy acct <;>
    cases hL : optTruthy l4 <;>
      cases hPat : optTruthy pat <;>
        cases hI : optTruthy inv <;>
          by_cases hP : asciiLowerStr (acct.getD ("")) = "portfolio" <;>
            by_cases hD : date ≠ "" ∧ date ≠ "00000000" <;>
              simp [hA, hL, hPat, hI, hP, hD]

theorem collisionLoop_post (fsE : String → Bool) (ap : String → String)
    (file_path target_dir new_filename invoice_date file_ext : String) :
    ∀ (fuel counter : Nat) (path p : String),
      collisionLoop fsE ap file_path target_dir new_filename invoice_date file_ext
        fuel counter path = some p →
      fsE p = false ∨ ap p = ap file_path := by
  intro fuel
  induction fuel with
  | zero =>
    intro counter path p h
    rw [collisionLoop] at h
    by_cases hc : fsE path = true ∧ ap path ≠ ap file_path
    · rw [if_pos hc] at h
      by_cases h100 : counter + 1 > 100
      · rw [if_pos h100] at h
        cases h
      · rw [if_neg h100] at h
        simp at h
    · rw [if_neg hc] at h
      cases h
      rcases Bool.eq_false_or_eq_true (fsE path) with hb | hb
      · right
        by_contra hne
        exact hc ⟨hb, hne⟩
      · exact Or.inl hb
  | succ fuel ih =>
    intro counter path p h
    rw [collisionLoop] at h
    by_cases hc : fsE path = true ∧ ap path ≠ ap file_path
    · rw [if_pos hc] at h
      by_cases h100 : counter + 1 > 100
      · rw [if_pos h100] at h
        cases h
      · rw [if_neg h100] at h
        exact ih _ _ p h
    · rw [if_neg hc] at h
      cases h
      rcases Bool.eq_false_or_eq_true (fsE path) with hb | hb
      · right
        by_contra hne
        exact hc ⟨hb, hne⟩
      · exact Or.inl hb

theorem resolveCollision_post (fsE : String → Bool) (ap : String → String)
    (file_path target_dir new_filename invoice_date file_ext p : String)
    (h : resolveCollision fsE ap file_path target_dir new_filename invoice_date file_ext
        = some p) :
    fsE p = false ∨ ap p = ap file_path :=
  collisionLoop_post fsE ap file_path target_dir new_filename invoice_date file_ext
    100 2 (joinPath target_dir new_filename) p h

/-! ## Claim theorems -/

/-- Claim C2: for every ExtractionResult the synthesized filename parts
appear in the fixed order: business name; account type immediately before
the document type when present; document type; account last-4 token;
"- patient/animal name"; invoice number; date.  The last-4 token appears
only when the account type is present and is not "Portfolio" and the
last-4 field is present, the invoice number only when it is present and no
account type is present, and the date only when it is not the sentinel
"00000000". -/
theorem claim_C2 (nowYear : Nat) (info : RawInfo) :
    synthesize_filename_parts nowYear info
      = [proc_business info]
        ++ (if optTruthy (proc_account_type info) = true
            then [(proc_account_type info).getD ("")] else [])
        ++ [proc_document_type info]
        ++ (if optTruthy (proc_account_type info) = true
              ∧ asciiLowerStr ((proc_account_type info).getD ("")) ≠ "portfolio"
              ∧ optTruthy (proc_account_last_4 info) = true
            then [(proc_account_last_4 info).getD ("")] else [])
        ++ (if optTruthy (proc_patient info) = true
            then [("- ") ++ (proc_patient info).getD ("")] else [])
        ++ (if optTruthy (proc_invoice_number info) = true
              ∧ optTruthy (proc_account_type info) = false
            then [(proc_invoice_number info).getD ("")] else [])
        ++ (if proc_invoice_date nowYear info ≠ ""
              ∧ proc_invoice_date nowYear info ≠ "00000000"
            then [proc_invoice_date nowYear info] else [])
    ∧ ((if optTruthy (proc_account_type info) = true
          ∧ asciiLowerStr ((proc_account_type info).getD ("")) ≠ "portfolio"
          ∧ optTruthy (proc_account_last_4 info) = true
        then [(proc_account_last_4 info).getD ("")] else ([] : List String)) ≠ [] →
        optTruthy (proc_account_type info) = true
        ∧ (proc_account_type info).getD ("") ≠ ("Portfolio")
        ∧ optTruthy (proc_account_last_4 info) = true)
    ∧ ((if optTruthy (proc_invoice_number info) = true
          ∧ optTruthy (proc_account_type info) = false
        then [(proc_invoice_number info).getD ("")] else ([] : List String)) ≠ [] →
        optTruthy (proc_invoice_number info) = true
        ∧ optTruthy (proc_account_type info) = false)
    ∧ ((if proc_invoice_date nowYear info ≠ ""
          ∧ proc_invoice_date nowYear info ≠ "00000000"
        then [proc_invoice_date nowYear info] else ([] : List String)) ≠ [] →
        proc_invoice_date nowYear info ≠ ("00000000")) := by
  refine ⟨synthesize_parts_decomp _ _ _ _ _ _ _, ?_, ?_, ?_⟩
  · intro h
    by_cases hc : optTruthy (proc_account_type info) = true
        ∧ asciiLowerStr ((proc_account_type info).getD ("")) ≠ "portfolio"
        ∧ optTruthy (proc_account_last_4 info) = true
    · refine ⟨hc.1, ?_, hc.2.2⟩
      intro hP
      apply hc.2.1
      rw [hP]
      decide
    · rw [if_neg hc] at h
      exact absurd rfl h
  · intro h
    by_cases hc : optTruthy (proc_invoice_number info) = true
        ∧ optTruthy (proc_account_type info) = false
    · exact hc
    · rw [if_neg hc] at h
      exact absurd rfl h
  · intro h
    by_cases hc : proc_invoice_date nowYear info ≠ ""
        ∧ proc_invoice_date nowYear info ≠ "00000000"
    · exact hc.2
    · rw [if_neg hc] at h
      exact absurd rfl h

theorem claim_C2_witness :
    optTruthy (proc_account_type
        ⟨some ("Chase"), some ("Statement"), some ("2024-09-23"), none, none,
         some ("Checking"), some ("1234")⟩) = true
    ∧ (proc_account_type
        ⟨some ("Chase"), some ("Statement"), some ("2024-09-23"), none, none,
         some ("Checking"), some ("1234")⟩).getD ("") ≠ ("Portfolio")
    ∧ optTruthy (proc_account_last_4
        ⟨some ("Chase"), some ("Statement"), some ("2024-09-23"), none, none,
         some ("Checking"), some ("1234")⟩) = true :=
  (claim_C2 2026 ⟨some ("Chase"), some ("Statement"), some ("2024-09-23"), none, none,
    some ("Checking"), some ("1234")⟩).2.1 (by decide)

/-- Claim C4: collision resolution only returns a path that is free or is
the source file itself, hence two files of a batch can never resolve to
the same target; the counter starts at 2 and is inserted before the date
suffix, so with "Acme Invoice 20240101.pdf" occupied the next file
resolves to "Acme Invoice 2 20240101.pdf"; when every variant collides,
the resolution aborts with a hard failure once the counter exceeds 100. -/
theorem claim_C4 :
    (∀ (fsE : String → Bool) (ap : String → String)
       (file_path target_dir new_filename invoice_date file_ext p : String),
       resolveCollision fsE ap file_path target_dir new_filename invoice_date file_ext
         = some p →
       fsE p = false ∨ ap p = ap file_path)
    ∧ (∀ (fsE1 fsE2 : String → Bool) (ap : String → String)
         (fp1 fp2 td1 td2 nf1 nf2 d1 d2 e1 e2 p1 p2 : String),
         resolveCollision fsE1 ap fp1 td1 nf1 d1 e1 = some p1 →
         resolveCollision fsE2 ap fp2 td2 nf2 d2 e2 = some p2 →
         fsE2 p1 = true → ap fp2 ≠ ap p1 → p2 ≠ p1)
    ∧ resolveCollision (fun q => q == ("/docs/Acme Invoice 20240101.pdf")) id
        ("/docs/src.pdf") ("/docs") ("Acme Invoice 20240101.pdf") ("20240101") (".pdf")
        = some ("/docs/Acme Invoice 2 20240101.pdf")
    ∧ resolveCollision (fun _ => true) id ("other.pdf") ("/docs")
        ("Acme Invoice 20240101.pdf") ("20240101") (".pdf") = none := by
  refine ⟨resolveCollision_post, ?_, by decide, by decide⟩
  intro fsE1 fsE2 ap fp1 fp2 td1 td2 nf1 nf2 d1 d2 e1 e2 p1 p2 _ h2 hex hne heq
  subst heq
  rcases resolveCollision_post fsE2 ap fp2 td2 nf2 d2 e2 p2 h2 with hb | hb
  · rw [hex] at hb
    cases hb
  · exact hne hb.symm

theorem claim_C4_witness :
    ((fun _ : String => false) ("/docs/out.pdf") = false
      ∨ id ("/docs/out.pdf") = id ("/docs/a.pdf"))
    ∧ ("/docs/B.pdf" : String) ≠ ("/docs/A.pdf") :=
  ⟨claim_C4.1 (fun _ => false) id ("/docs/a.pdf") ("/docs") ("out.pdf") ("") (".pdf")
      ("/docs/out.pdf") (by decide),
   claim_C4.2.1 (fun _ => false) (fun q => q == ("/docs/A.pdf")) id
      ("/x.pdf") ("/y.pdf") ("/docs") ("/docs") ("A.pdf") ("B.pdf") ("") ("") (".pdf") (".pdf")
      ("/docs/A.pdf") ("/docs/B.pdf") (by decide) (by decide) (by decide) (by decide)⟩

/-- Claim C1 (bug evidence): the subprocess-failure and JSON-decode-error
paths do return exactly the fallback record, and a well-formed object
gets `document_type` defaulted to "Document" when the field is absent or
empty; but "never raises" does not hold for every response that cannot
be parsed as the expected structure: a response decoding to `null` or
`123` raises `AttributeError` at line 184, and an object whose
`account_type` is the truthy non-string `true` raises `AttributeError`
at line 187, because the `except` at line 197 catches only
`json.JSONDecodeError`.  The final conjunct shows that on any decoded
object the function either returns the defaulted record or raises — it
never returns anything else. -/
theorem claim_C1_bug :
    extract_invoice_info BackendOutcome.callFailed = ExtractOutcome.ok fallback_record
    ∧ extract_invoice_info BackendOutcome.parseFailed = ExtractOutcome.ok fallback_record
    ∧ fallback_record
        = [(("business_name"), PyVal.pyStr ("Unknown")),
           (("document_type"), PyVal.pyStr ("Document")),
           (("invoice_date"), PyVal.pyNone),
           (("invoice_number"), PyVal.pyNone),
           (("patient_animal_name"), PyVal.pyNone),
           (("account_type"), PyVal.pyNone),
           (("account_last_4"), PyVal.pyNone)]
    ∧ extract_invoice_info (BackendOutcome.parsed PyVal.pyNone)
        = ExtractOutcome.raises ("AttributeError")
    ∧ extract_invoice_info (BackendOutcome.parsed (PyVal.pyNum 123))
        = ExtractOutcome.raises ("AttributeError")
    ∧ extract_invoice_info (BackendOutcome.parsed (PyVal.pyDict
        [(("business_name"), PyVal.pyStr ("X")),
         (("account_type"), PyVal.pyBool true)]))
        = ExtractOutcome.raises ("AttributeError")
    ∧ extract_invoice_info (BackendOutcome.parsed (PyVal.pyDict
        [(("business_name"), PyVal.pyStr ("Acme"))]))
        = ExtractOutcome.ok
            [(("business_name"), PyVal.pyStr ("Acme")),
             (("document_type"), PyVal.pyStr ("Document"))]
    ∧ extract_invoice_info (BackendOutcome.parsed (PyVal.pyDict
        [(("business_name"), PyVal.pyStr ("Acme")),
         (("document_type"), PyVal.pyStr ("Invoice"))]))
        = ExtractOutcome.ok
            [(("business_name"), PyVal.pyStr ("Acme")),
             (("document_type"), PyVal.pyStr ("Invoice"))]
    ∧ extract_invoice_info (BackendOutcome.parsed (PyVal.pyDict
        [(("business_name"), PyVal.pyStr ("Acme")),
         (("document_type"), PyVal.pyStr (""))]))
        = ExtractOutcome.ok
            [(("business_name"), PyVal.pyStr ("Acme")),
             (("document_type"), PyVal.pyStr ("Document"))]
    ∧ (∀ entries : List (String × PyVal),
        extract_invoice_info (BackendOutcome.parsed (PyVal.pyDict entries))
          = ExtractOutcome.ok (default_document_type entries)
        ∨ extract_invoice_info (BackendOutcome.parsed (PyVal.pyDict entries))
          = ExtractOutcome.raises ("AttributeError")) := by
  refine ⟨rfl, rfl, rfl, rfl, rfl, rfl, rfl, rfl, rfl, ?_⟩
  intro entries
  rw [extract_invoice_info, extract_invoice_info_parsed]
  split
  · split
    · exact Or.inl rfl
    · exact Or.inr rfl
  · exact Or.inl rfl

/-- Claim C9: for an image or multi-image payload the request is routed to
the vision-capable model: with `auto_vision` at its default, a caller that
selected the text-only default model is force-switched to the vision
model, the resulting request never carries the text-only default model,
and its content is the multimodal part list led by the prompt text. -/
theorem claim_C9 (prompt model : String) (fc : FileContent)
    (him : isImagePayload fc = true) :
    (model = DEFAULT_MODEL →
      (build_grok_request prompt model (some fc) true).model = VISION_MODEL)
    ∧ (build_grok_request prompt model (some fc) true).model ≠ DEFAULT_MODEL
    ∧ ∃ ps, (build_grok_request prompt model (some fc) true).content
        = MessageContent.parts (ContentPart.textPart prompt :: ps) := by
  have hne : VISION_MODEL ≠ DEFAULT_MODEL := by decide
  cases fc with
  | text c => simp [isImagePayload] at him
  | image p =>
    by_cases hm : model = DEFAULT_MODEL
    · exact ⟨fun _ => by simp [build_grok_request, hm],
        by simp [build_grok_request, hm, hne],
        ⟨[ContentPart.imagePart p], by simp [build_grok_request]⟩⟩
    · exact ⟨fun h => absurd h hm,
        by simp [build_grok_request, hm],
        ⟨[ContentPart.imagePart p], by simp [build_grok_request]⟩⟩
  | multiImage ps =>
    by_cases hm : model = DEFAULT_MODEL
    · exact ⟨fun _ => by simp [build_grok_request, hm],
        by simp [build_grok_request, hm, hne],
        ⟨ps.map ContentPart.imagePart, by simp [build_grok_request]⟩⟩
    · exact ⟨fun h => absurd h hm,
        by simp [build_grok_request, hm],
        ⟨ps.map ContentPart.imagePart, by simp [build_grok_request]⟩⟩

theorem claim_C9_witness :
    (build_grok_request ("extract") DEFAULT_MODEL
      (some (FileContent.image ⟨("data:image/png;base64,AAAA"), ("high")⟩)) true).model
      = VISION_MODEL :=
  (claim_C9 ("extract") DEFAULT_MODEL
    (FileContent.image ⟨("data:image/png;base64,AAAA"), ("high")⟩) (by decide)).1 rfl

/-- Claim C5: a case-only collision is resolved by a two-step rename
through the temporary name built from the first eight hex digits of the
md5 digest of "source->target", and the stored content reaches the target
path byte-for-byte. -/
theorem claim_C5 {α : Type} (md5hex : String → String) (file_path new_file_path : String)
    (fs : List (String × α)) (content : α)
    (_hcase : asciiLowerStr (basename file_path) = asciiLowerStr (basename new_file_path))
    (_hdiff : basename file_path ≠ basename new_file_path)
    (hsrc : fsLookup fs file_path = some content)
    (hmd5 : (md5hex (file_path ++ ("->") ++ new_file_path)).length = 32) :
    case_only_rename md5hex file_path new_file_path fs
      = fsRename (case_only_temp md5hex file_path new_file_path) new_file_path
          (fsRename file_path (case_only_temp md5hex file_path new_file_path) fs)
    ∧ fsLookup (case_only_rename md5hex file_path new_file_path fs) new_file_path = some content
    ∧ case_only_temp md5hex file_path new_file_path
        = (splitext file_path).1 ++ (".tmp_")
            ++ strTake (md5hex (file_path ++ ("->") ++ new_file_path)) 8
            ++ (splitext file_path).2
    ∧ (strTake (md5hex (file_path ++ ("->") ++ new_file_path)) 8).length = 8 := by
  refine ⟨rfl, ?_, rfl, ?_⟩
  · exact fsRename_lookup_dst _ _ _ _ (fsRename_lookup_dst _ _ _ _ hsrc)
  · have h32 : (md5hex (file_path ++ ("->") ++ new_file_path)).data.length = 32 := hmd5
    show (((md5hex (file_path ++ ("->") ++ new_file_path)).data.take 8)).length = 8
    rw [List.length_take, h32]
    rfl

theorem claim_C5_witness :
    fsLookup (case_only_rename (fun _ => ("0123456789abcdef0123456789abcdef"))
        ("/d/invoice.pdf") ("/d/Invoice.pdf") [(("/d/invoice.pdf"), 7)]) ("/d/Invoice.pdf")
      = some 7
    ∧ (strTake ((fun _ : String => ("0123456789abcdef0123456789abcdef"))
        (("/d/invoice.pdf") ++ ("->") ++ ("/d/Invoice.pdf"))) 8).length = 8 :=
  ⟨(claim_C5 (fun _ => ("0123456789abcdef0123456789abcdef")) ("/d/invoice.pdf")
      ("/d/Invoice.pdf") [(("/d/invoice.pdf"), 7)] 7
      (by decide) (by decide) (by decide) (by decide)).2.1,
   (claim_C5 (fun _ => ("0123456789abcdef0123456789abcdef")) ("/d/invoice.pdf")
      ("/d/Invoice.pdf") [(("/d/invoice.pdf"), 7)] 7
      (by decide) (by decide) (by decide) (by decide)).2.2.2⟩

/-- Claim C7: any base64 payload the encoder returns is at most 10,000,000
bytes long; the compression chain never returns data above the requested
ceiling; when the raw input exceeds 7,500,000 bytes and the whole chain
(quality reduction at descending qualities, then downscaling at 75/50/25
percent and quality 70) fails, the encoder reports a hard failure instead
of returning an oversized or truncated payload. -/
theorem claim_C7 :
    (∀ (convert : ConvertSpec → Option (List Nat)) (file_ext : String) (file_data : List Nat)
       (out : List Char), process_image_file_b64 convert file_ext file_data = some out →
       out.length ≤ MAX_BASE64_SIZE)
    ∧ (∀ (attempts : List (Option (List Nat))) (max_size : Nat) (out : List Nat),
        compress_image attempts max_size = some out → out.length ≤ max_size)
    ∧ (∀ (convert : ConvertSpec → Option (List Nat)) (file_ext : String) (file_data : List Nat),
        MAX_RAW_SIZE < file_data.length →
        compress_image (compressAttempts convert file_ext) MAX_RAW_SIZE = none →
        process_image_file_b64 convert file_ext file_data = none)
    ∧ (∀ convert : ConvertSpec → Option (List Nat),
        compressAttempts convert (".png")
          = [convert (ConvertSpec.quality 85), convert (ConvertSpec.quality 70),
             convert (ConvertSpec.quality 50), convert (ConvertSpec.quality 30),
             convert (ConvertSpec.resize 75 70), convert (ConvertSpec.resize 50 70),
             convert (ConvertSpec.resize 25 70)]) := by
  refine ⟨?_, fun a m o => compress_image_le m a o, ?_, fun convert => rfl⟩
  · intro convert ext data out h
    rw [process_image_file_b64] at h
    rcases h' : (if data.length > MAX_RAW_SIZE then
        compress_image (compressAttempts convert ext) MAX_RAW_SIZE else some data) with _ | d
    · rw [h'] at h
      simp at h
    · rw [h'] at h
      simp only at h
      by_cases hb : (b64chars d).length > MAX_BASE64_SIZE
      · rw [if_pos hb] at h
        cases h
      · rw [if_neg hb] at h
        cases h
        omega
  · intro convert ext data hlen hnone
    rw [process_image_file_b64, if_pos (by omega), hnone]

theorem claim_C7_witness :
    process_image_file_b64 (fun _ => none) (".png") (List.replicate 7500001 0) = none :=
  claim_C7.2.2.1 (fun _ => none) (".png") (List.replicate 7500001 0)
    (by rw [List.length_replicate]; decide) rfl

/-- Claim C6: for raw images of at most 7,500,000 bytes the encoder
applies no compression — the base64 payload is the encoding of the
original bytes and decodes back to them unchanged — and the payload is at
most 10,000,000 bytes long. -/
theorem claim_C6 (convert : ConvertSpec → Option (List Nat)) (file_ext : String)
    (mime_type : Option String) (file_data : List Nat)
    (hlen : file_data.length ≤ MAX_RAW_SIZE) (hbytes : ∀ x ∈ file_data, x < 256) :
    process_image_file_b64 convert file_ext file_data = some (b64chars file_data)
    ∧ b64decodeChars (b64chars file_data) = file_data
    ∧ (b64chars file_data).length ≤ MAX_BASE64_SIZE
    ∧ process_image_file convert file_ext mime_type file_data
        = some ⟨("data:") ++ mime_type.getD ("image/jpeg") ++ (";base64,")
                  ++ String.mk (b64chars file_data), ("high")⟩ := by
  have hlen' : file_data.length ≤ 7500000 := hlen
  have hblen : (b64chars file_data).length ≤ MAX_BASE64_SIZE := by
    rw [b64chars_length]
    show 4 * ((file_data.length + 2) / 3) ≤ 10000000
    omega
  have h1 : process_image_file_b64 convert file_ext file_data = some (b64chars file_data) := by
    rw [process_image_file_b64, if_neg (by omega)]
    simp only
    rw [if_neg (by omega)]
  exact ⟨h1, b64_roundtrip file_data hbytes, hblen, by rw [process_image_file, h1]⟩

theorem claim_C6_witness :
    process_image_file_b64 (fun _ => none) (".png") [72, 105, 33] = some (b64chars [72, 105, 33])
    ∧ b64decodeChars (b64chars [72, 105, 33]) = [72, 105, 33] :=
  ⟨(claim_C6 (fun _ => none) (".png") none [72, 105, 33] (by decide) (by decide)).1,
   (claim_C6 (fun _ => none) (".png") none [72, 105, 33] (by decide) (by decide)).2.1⟩

/-- Claim C8 (bug evidence): with the dry-run flag set the rename tail
performs no filesystem mutation in any state, but its printed action
description is not identical in content to the real run's description in
the state where the file is already correctly named: the dry run prints
"Would rename X to X" while the real run prints "File already correctly
named: X".  The second conjunct ties the concrete state to the synthesis
pipeline. -/
theorem claim_C8_bug :
    (∀ (fsE : String → Bool) (ap md5hex : String → String) (move_to : Option String)
       (file_path new_filename invoice_date file_ext : String),
       (rename_tail fsE ap md5hex true move_to file_path new_filename invoice_date
         file_ext).actions = [])
    ∧ joinSpace (synthesize_filename_parts 2026
        ⟨some ("Acme"), some ("Invoice"), some ("2024-01-01"), none, none, none, none⟩)
        ++ (".pdf") = ("Acme Invoice 20240101.pdf")
    ∧ (rename_tail (fun q => q == ("/docs/Acme Invoice 20240101.pdf")) id
        (fun _ => ("0123456789abcdef0123456789abcdef")) true none
        ("/docs/Acme Invoice 20240101.pdf") ("Acme Invoice 20240101.pdf")
        ("20240101") (".pdf")).messages
      = [("Would rename Acme Invoice 20240101.pdf to Acme Invoice 20240101.pdf")]
    ∧ (rename_tail (fun q => q == ("/docs/Acme Invoice 20240101.pdf")) id
        (fun _ => ("0123456789abcdef0123456789abcdef")) false none
        ("/docs/Acme Invoice 20240101.pdf") ("Acme Invoice 20240101.pdf")
        ("20240101") (".pdf")).messages
      = [("File already correctly named: Acme Invoice 20240101.pdf")]
    ∧ (rename_tail (fun q => q == ("/docs/Acme Invoice 20240101.pdf")) id
        (fun _ => ("0123456789abcdef0123456789abcdef")) true none
        ("/docs/Acme Invoice 20240101.pdf") ("Acme Invoice 20240101.pdf")
        ("20240101") (".pdf")).messages
      ≠ (rename_tail (fun q => q == ("/docs/Acme Invoice 20240101.pdf")) id
        (fun _ => ("0123456789abcdef0123456789abcdef")) false none
        ("/docs/Acme Invoice 20240101.pdf") ("Acme Invoice 20240101.pdf")
        ("20240101") (".pdf")).messages := by
  refine ⟨?_, by decide, by decide, by decide, by decide⟩
  intro fsE ap md5hex move_to file_path new_filename invoice_date file_ext
  simp only [rename_tail]
  split <;> simp

/-- Claim C10 counterexample: with word limit 17 and a capped name whose
seventeen words are all the stopword "the", every word of the capped name
is a trailing stopword, yet `clean_filename` does not return the capped
name unchanged (the 50-character truncation alters it). -/
theorem claim_C10_counterexample :
    (pySplit (capWords 17 (applyShouty (clean_stage1
        ("the the the the the the the the the the the the the the the the the"))))).all
        (fun w => trailing_words.contains (asciiLowerStr w)) = true
    ∧ clean_filename
        (some ("the the the the the the the the the the the the the the the the the"))
        (some 17)
      ≠ capWords 17 (applyShouty (clean_stage1
        ("the the the the the the the the the the the the the the the the the"))) := by
  constructor
  · decide
  · decide

/-- Claim C10 (amended): in `clean_filename` with a truthy word limit,
when the word-capped name has at least one word, every such word is a
trailing stopword, and the capped name fits the 50-character cap (always
the case at the caller's limit of 4, where at most four stopwords join to
at most 47 characters), the stopword stripping is skipped and the capped
name is returned unchanged — e.g. "The Company" stays "The Company" —
rather than being reduced to an empty string; and for every input,
`clean_filename` never returns an empty string: `None`, empty, or
fully-stripped input yields "Unknown". -/
theorem claim_C10 :
    (∀ (t : String) (n : Nat), n ≠ 0 →
       pySplit (capWords n (applyShouty (clean_stage1 t))) ≠ [] →
       (pySplit (capWords n (applyShouty (clean_stage1 t)))).all
         (fun w => trailing_words.contains (asciiLowerStr w)) = true →
       (capWords n (applyShouty (clean_stage1 t))).length ≤ 50 →
       clean_filename (some t) (some n) = capWords n (applyShouty (clean_stage1 t)))
    ∧ clean_filename (some ("The Company")) (some 4) = ("The Company")
    ∧ (∀ (text : Option String) (limit : Option Nat), clean_filename text limit ≠ "")
    ∧ (∀ limit : Option Nat, clean_filename none limit = ("Unknown"))
    ∧ (∀ limit : Option Nat, clean_filename (some ("")) limit = ("Unknown"))
    ∧ (∀ (t : String) (limit : Option Nat), clean_stage1 t = "" →
        clean_filename (some t) limit = ("Unknown")) := by
  refine ⟨?_, by decide, ?_, ?_, ?_, ?_⟩
  · intro t n hn hne hall hlen
    by_cases ht : t = ""
    · subst ht
      have hc : capWords n (applyShouty (clean_stage1 (""))) = "" := by
        have h1 : applyShouty (clean_stage1 ("")) = "" := by decide
        rw [h1, capWords_empty]
      rw [hc] at hne
      exact absurd rfl hne
    · simp only [clean_filename]
      rw [if_neg ht]
      rw [if_neg hn]
      have hAL : applyLimit n (applyShouty (clean_stage1 t))
          = capWords n (applyShouty (clean_stage1 t)) := by
        rw [applyLimit]
        rw [dropTrailingStop_all _ hall]
        simp
      rw [hAL]
      have hT : truncate50 (capWords n (applyShouty (clean_stage1 t)))
          = capWords n (applyShouty (clean_stage1 t)) := by
        rw [truncate50, if_neg (by omega)]
      rw [hT]
      rw [if_neg (fun he => hne (by rw [he]; rfl))]
  · intro text limit
    rcases text with _ | t
    · simp [clean_filename]
    · by_cases ht : t = ""
      · simp only [clean_filename]
        rw [if_pos ht]
        decide
      · simp only [clean_filename]
        rw [if_neg ht]
        set c := truncate50 (match limit with
          | some n => if n = 0 then applyShouty (clean_stage1 t)
                      else applyLimit n (applyShouty (clean_stage1 t))
          | none => applyShouty (clean_stage1 t)) with hc
        by_cases hcc : c = ""
        · rw [if_pos hcc]
          decide
        · rw [if_neg hcc]
          exact hcc
  · intro limit
    rfl
  · intro limit
    simp [clean_filename]
  · intro t limit h
    by_cases ht : t = ""
    · simp only [clean_filename]
      rw [if_pos ht]
    · rcases limit with _ | n
      · simp only [clean_filename]
        rw [if_neg ht, h]
        decide
      · simp only [clean_filename]
        rw [if_neg ht, h]
        by_cases hn : n = 0
        · rw [if_pos hn]
          decide
        · rw [if_neg hn]
          have hsh : applyShouty ("") = "" := by decide
          rw [hsh, applyLimit_empty]
          decide

/-! ## Lemmas for format_date idempotence (claim C3) -/

theorem digitVal_le (c : Char) (h : isAsciiDigit c = true) : digitVal c ≤ 9 := by
  simp only [isAsciiDigit, decide_eq_true_eq] at h
  simp only [digitVal]
  omega

theorem parse4Y_char (s : List Char) (y : Nat) (r : List Char)
    (h : parse4Y s = some (y, r)) :
    y ≤ 9999 ∧ ∃ a b c d, s = a :: b :: c :: d :: r := by
  match s with
  | [] => simp [parse4Y] at h
  | [a] => simp [parse4Y] at h
  | [a, b] => simp [parse4Y] at h
  | [a, b, c] => simp [parse4Y] at h
  | a :: b :: c :: d :: rest =>
    rw [parse4Y] at h
    split_ifs at h with hd
    · obtain ⟨h1, h2, h3, h4⟩ := hd
      have e1 := digitVal_le a h1
      have e2 := digitVal_le b h2
      have e3 := digitVal_le c h3
      have e4 := digitVal_le d h4
      simp only [Option.some.injEq, Prod.mk.injEq] at h
      obtain ⟨hy, hr⟩ := h
      subst hy
      subst hr
      exact ⟨by omega, a, b, c, d, rfl⟩

theorem parseMon_char (s : List Char) (m : Nat) (r : List Char)
    (h : parseMon s = some (m, r)) :
    (1 ≤ m ∧ m ≤ 12) ∧ ((∃ x, s = x :: r) ∨ (∃ x y, s = x :: y :: r)) := by
  match s with
  | [] => simp [parseMon] at h
  | [c1] =>
    rw [parseMon] at h
    split_ifs at h with h1
    · simp only [Option.some.injEq, Prod.mk.injEq] at h
      obtain ⟨hm, hr⟩ := h
      subst hm
      subst hr
      simp only [digitVal]
      exact ⟨by omega, Or.inl ⟨c1, rfl⟩⟩
  | c1 :: c2 :: rest =>
    rw [parseMon] at h
    split_ifs at h with h0 h1 h2 h3 h4 <;>
        simp only [Option.some.injEq, Prod.mk.injEq] at h
    · obtain ⟨hm, hr⟩ := h
      subst hm
      subst hr
      obtain ⟨_, hc1, hc2⟩ := h1
      simp only [digitVal]
      exact ⟨by omega, Or.inr ⟨c1, c2, rfl⟩⟩
    · obtain ⟨hm, hr⟩ := h
      subst hm
      subst hr
      obtain ⟨_, hc1, hc2⟩ := h2
      simp only [digitVal]
      exact ⟨by omega, Or.inr ⟨c1, c2, rfl⟩⟩
    · obtain ⟨hm, hr⟩ := h
      subst hm
      subst hr
      simp only [digitVal]
      exact ⟨by omega, Or.inl ⟨c1, rfl⟩⟩
    · obtain ⟨hm, hr⟩ := h
      subst hm
      subst hr
      simp only [digitVal]
      exact ⟨by omega, Or.inl ⟨c1, rfl⟩⟩

theorem parseDay_char (s : List Char) (d : Nat) (r : List Char)
    (h : parseDay s = some (d, r)) :
    (1 ≤ d ∧ d ≤ 31) ∧ ((∃ x, s = x :: r) ∨ (∃ x y, s = x :: y :: r)) := by
  match s with
  | [] => simp [parseDay] at h
  | [c1] =>
    rw [parseDay] at h
    split_ifs at h with h1
    simp only [Option.some.injEq, Prod.mk.injEq] at h
    obtain ⟨hd, hr⟩ := h
    subst hd
    subst hr
    simp only [digitVal]
    exact ⟨by omega, Or.inl ⟨c1, rfl⟩⟩
  | c1 :: c2 :: rest =>
    rw [parseDay] at h
    split_ifs at h with h1 h2 h3 h4 <;>
        simp only [Option.some.injEq, Prod.mk.injEq] at h
    · obtain ⟨hd, hr⟩ := h
      subst hd
      subst hr
      have hv : digitVal c2 ≤ 1 := by
        rcases h1.2 with hc | hc <;> subst hc <;> decide
      exact ⟨by omega, Or.inr ⟨c1, c2, rfl⟩⟩
    · obtain ⟨hd, hr⟩ := h
      subst hd
      subst hr
      have hv1 : 1 ≤ digitVal c1 ∧ digitVal c1 ≤ 2 := by
        rcases h2.1 with hc | hc <;> subst hc <;> decide
      have hv2 : digitVal c2 ≤ 9 := digitVal_le c2 h2.2
      exact ⟨by omega, Or.inr ⟨c1, c2, rfl⟩⟩
    · obtain ⟨hd, hr⟩ := h
      subst hd
      subst hr
      obtain ⟨_, hc1, hc2⟩ := h3
      simp only [digitVal]
      exact ⟨by omega, Or.inr ⟨c1, c2, rfl⟩⟩
    · obtain ⟨hd, hr⟩ := h
      subst hd
      subst hr
      simp only [digitVal]
      exact ⟨by omega, Or.inl ⟨c1, rfl⟩⟩

theorem parse2D_char (s : List Char) (v : Nat) (r : List Char)
    (h : parse2D s = some (v, r)) :
    v ≤ 99 ∧ ∃ a b, s = a :: b :: r := by
  match s with
  | [] => simp [parse2D] at h
  | [a] => simp [parse2D] at h
  | a :: b :: rest =>
    rw [parse2D] at h
    split_ifs at h with hd
    obtain ⟨h1, h2⟩ := hd
    have e1 := digitVal_le a h1
    have e2 := digitVal_le b h2
    simp only [Option.some.injEq, Prod.mk.injEq] at h
    obtain ⟨hv, hr⟩ := h
    subst hv
    subst hr
    exact ⟨by omega, a, b, rfl⟩

theorem parseMonthName_bound :
    ∀ (L : List (List Char × Nat)) (s : List Char) (v : Nat) (r : List Char),
      (∀ p ∈ L, 1 ≤ p.2 ∧ p.2 ≤ 12) → parseMonthName L s = some (v, r) → 1 ≤ v ∧ v ≤ 12
  | [], s, v, r, _, h => by simp [parseMonthName] at h
  | (nm, w) :: L', s, v, r, hL, h => by
    rw [parseMonthName] at h
    split at h
    · simp only [Option.some.injEq, Prod.mk.injEq] at h
      obtain ⟨hv, _⟩ := h
      subst hv
      exact hL (nm, w) (by simp)
    · exact parseMonthName_bound L' s v r (fun p hp => hL p (by simp [hp])) h

theorem monthsFull_vals : ∀ p ∈ monthsFull, 1 ≤ p.2 ∧ p.2 ≤ 12 := by decide

theorem monthsAbbr_vals : ∀ p ∈ monthsAbbr, 1 ≤ p.2 ∧ p.2 ≤ 12 := by decide

theorem daysInMonth_le (y m : Nat) : daysInMonth y m ≤ 31 := by
  unfold daysInMonth
  split <;> first | omega | (split <;> omega)

/-- Invariant of the token interpreter: a successful run keeps the
assembled year at most 9999, the month in 1..12 and the day in 1..31. -/
theorem runToks_bounds : ∀ (ts : List Tok) (s : List Char) (pd pd' : PD),
    runToks ts s pd = some pd' →
    ((∀ y, pd.y = some y → y ≤ 9999) ∧ (∀ m, pd.m = some m → 1 ≤ m ∧ m ≤ 12)
      ∧ (∀ d, pd.d = some d → 1 ≤ d ∧ d ≤ 31)) →
    (∀ y, pd'.y = some y → y ≤ 9999) ∧ (∀ m, pd'.m = some m → 1 ≤ m ∧ m ≤ 12)
      ∧ (∀ d, pd'.d = some d → 1 ≤ d ∧ d ≤ 31)
  | [], s, pd, pd', h, hok => by
    rw [runToks] at h
    split_ifs at h
    injection h with h'
    subst h'
    exact hok
  | Tok.year :: ts, s, pd, pd', h, hok => by
    rw [runToks] at h
    split at h
    · rename_i y r hp
      refine runToks_bounds ts r ⟨some y, pd.m, pd.d⟩ pd' h ⟨?_, hok.2.1, hok.2.2⟩
      intro y' hy'
      simp only [Option.some.injEq] at hy'
      have := (parse4Y_char s y r hp).1
      omega
    · cases h
  | Tok.mon :: ts, s, pd, pd', h, hok => by
    rw [runToks] at h
    split at h
    · rename_i m r hp
      refine runToks_bounds ts r ⟨pd.y, some m, pd.d⟩ pd' h ⟨hok.1, ?_, hok.2.2⟩
      intro m' hm'
      simp only [Option.some.injEq] at hm'
      have := (parseMon_char s m r hp).1
      omega
    · cases h
  | Tok.day :: ts, s, pd, pd', h, hok => by
    rw [runToks] at h
    split at h
    · rename_i d r hp
      refine runToks_bounds ts r ⟨pd.y, pd.m, some d⟩ pd' h ⟨hok.1, hok.2.1, ?_⟩
      intro d' hd'
      simp only [Option.some.injEq] at hd'
      have := (parseDay_char s d r hp).1
      omega
    · cases h
  | Tok.monFull :: ts, s, pd, pd', h, hok => by
    rw [runToks] at h
    split at h
    · rename_i m r hp
      refine runToks_bounds ts r ⟨pd.y, some m, pd.d⟩ pd' h ⟨hok.1, ?_, hok.2.2⟩
      intro m' hm'
      simp only [Option.some.injEq] at hm'
      have := parseMonthName_bound monthsFull s m r monthsFull_vals hp
      omega
    · cases h
  | Tok.monAbbr :: ts, s, pd, pd', h, hok => by
    rw [runToks] at h
    split at h
    · rename_i m r hp
      refine runToks_bounds ts r ⟨pd.y, some m, pd.d⟩ pd' h ⟨hok.1, ?_, hok.2.2⟩
      intro m' hm'
      simp only [Option.some.injEq] at hm'
      have := parseMonthName_bound monthsAbbr s m r monthsAbbr_vals hp
      omega
    · cases h
  | Tok.lit c :: ts, [], pd, pd', h, hok => by
    rw [runToks] at h
    cases h
  | Tok.lit c :: ts, x :: xs, pd, pd', h, hok => by
    rw [runToks] at h
    split_ifs at h
    exact runToks_bounds ts xs pd pd' h hok
  | Tok.ws :: ts, [], pd, pd', h, hok => by
    rw [runToks] at h
    cases h
  | Tok.ws :: ts, x :: xs, pd, pd', h, hok => by
    rw [runToks] at h
    split_ifs at h
    exact runToks_bounds ts (xs.dropWhile pyWs) pd pd' h hok

theorem strptime_bound (f : DateFmt) (s : List Char) (y m d : Nat)
    (h : strptime f s = some (y, m, d)) :
    1 ≤ y ∧ y ≤ 9999 ∧ 1 ≤ m ∧ m ≤ 12 ∧ 1 ≤ d ∧ d ≤ daysInMonth y m := by
  rw [strptime] at h
  split at h
  · rename_i y' m' d' hshape
    split_ifs at h with hv
    simp only [Option.some.injEq, Prod.mk.injEq] at h
    obtain ⟨hy, hm, hd⟩ := h
    subst hy
    subst hm
    subst hd
    have hinit : (∀ y, (⟨none, none, none⟩ : PD).y = some y → y ≤ 9999)
        ∧ (∀ m, (⟨none, none, none⟩ : PD).m = some m → 1 ≤ m ∧ m ≤ 12)
        ∧ (∀ d, (⟨none, none, none⟩ : PD).d = some d → 1 ≤ d ∧ d ≤ 31) := by
      refine ⟨?_, ?_, ?_⟩ <;> intro _ hx <;> cases hx
    have hb := runToks_bounds (fmtToks f) s ⟨none, none, none⟩
      ⟨some y', some m', some d'⟩ hshape hinit
    exact ⟨hv.1, hb.1 y' rfl, (hb.2.1 m' rfl).1, (hb.2.1 m' rfl).2,
      (hb.2.2 d' rfl).1, hv.2⟩
  · cases h

theorem asciiLower_digit (c : Char) (h : isAsciiDigit c = true) : asciiLower c = c := by
  simp only [isAsciiDigit, decide_eq_true_eq] at h
  rw [asciiLower, if_neg (by omega)]

theorem pyWs_digit (c : Char) (h : isAsciiDigit c = true) : pyWs c = false := by
  simp only [isAsciiDigit, decide_eq_true_eq] at h
  simp only [pyWs, decide_eq_false_iff_not]
  omega

theorem eatNameCI_digits (nm s : List Char) (hne : nm ≠ [])
    (h97 : 97 ≤ (nm.headD ' ').toNat) (h122 : (nm.headD ' ').toNat ≤ 122)
    (hs : ∀ c ∈ s, isAsciiDigit c = true) : eatNameCI nm s = none := by
  match nm with
  | [] => exact absurd rfl hne
  | c :: cs =>
    simp only [List.headD_cons] at h97 h122
    match s with
    | [] => rfl
    | x :: xs =>
      rw [eatNameCI, if_neg]
      intro he
      have hx := hs x (by simp)
      rw [asciiLower_digit x hx] at he
      subst he
      simp only [isAsciiDigit, decide_eq_true_eq] at hx
      omega

theorem parseMonthName_digits :
    ∀ (L : List (List Char × Nat)) (s : List Char),
      (∀ p ∈ L, p.1 ≠ [] ∧ 97 ≤ (p.1.headD ' ').toNat ∧ (p.1.headD ' ').toNat ≤ 122) →
      (∀ c ∈ s, isAsciiDigit c = true) → parseMonthName L s = none
  | [], _, _, _ => rfl
  | (nm, w) :: L', s, hL, hs => by
    rw [parseMonthName]
    have h := hL (nm, w) (by simp)
    rw [eatNameCI_digits nm s h.1 h.2.1 h.2.2 hs]
    exact parseMonthName_digits L' s (fun p hp => hL p (by simp [hp])) hs

theorem monthsFull_heads : ∀ p ∈ monthsFull,
    p.1 ≠ [] ∧ 97 ≤ (p.1.headD ' ').toNat ∧ (p.1.headD ' ').toNat ≤ 122 := by decide

theorem monthsAbbr_heads : ∀ p ∈ monthsAbbr,
    p.1 ≠ [] ∧ 97 ≤ (p.1.headD ' ').toNat ∧ (p.1.headD ' ').toNat ≤ 122 := by decide

/-- On a pure-digit input, a token list containing a digit-breaking token
can never match. -/
theorem runToks_digits : ∀ (ts : List Tok) (s : List Char) (pd : PD),
    (∃ t ∈ ts, tokBreaksDigits t = true) → (∀ c ∈ s, isAsciiDigit c = true) →
    runToks ts s pd = none
  | [], _, _, hex, _ => by simp at hex
  | Tok.year :: ts, s, pd, hex, hs => by
    rw [runToks]
    cases hp : parse4Y s with
    | none => rfl
    | some yr =>
      obtain ⟨y, r⟩ := yr
      obtain ⟨-, a, b, c, d, hshape⟩ := parse4Y_char s y r hp
      have hs' : ∀ c' ∈ r, isAsciiDigit c' = true := fun c' hc' =>
        hs c' (by rw [hshape]; simp [hc'])
      have hex' : ∃ t ∈ ts, tokBreaksDigits t = true := by
        obtain ⟨t, ht, hb⟩ := hex
        rcases List.mem_cons.mp ht with he | ht'
        · subst he
          simp [tokBreaksDigits] at hb
        · exact ⟨t, ht', hb⟩
      exact runToks_digits ts r ⟨some y, pd.m, pd.d⟩ hex' hs'
  | Tok.mon :: ts, s, pd, hex, hs => by
    rw [runToks]
    cases hp : parseMon s with
    | none => rfl
    | some mr =>
      obtain ⟨m, r⟩ := mr
      obtain ⟨-, hshape⟩ := parseMon_char s m r hp
      have hs' : ∀ c' ∈ r, isAsciiDigit c' = true := by
        intro c' hc'
        rcases hshape with ⟨x, hx⟩ | ⟨x, z, hx⟩
        · exact hs c' (by rw [hx]; simp [hc'])
        · exact hs c' (by rw [hx]; simp [hc'])
      have hex' : ∃ t ∈ ts, tokBreaksDigits t = true := by
        obtain ⟨t, ht, hb⟩ := hex
        rcases List.mem_cons.mp ht with he | ht'
        · subst he
          simp [tokBreaksDigits] at hb
        · exact ⟨t, ht', hb⟩
      exact runToks_digits ts r ⟨pd.y, some m, pd.d⟩ hex' hs'
  | Tok.day :: ts, s, pd, hex, hs => by
    rw [runToks]
    cases hp : parseDay s with
    | none => rfl
    | some dr =>
      obtain ⟨d, r⟩ := dr
      obtain ⟨-, hshape⟩ := parseDay_char s d r hp
      have hs' : ∀ c' ∈ r, isAsciiDigit c' = true := by
        intro c' hc'
        rcases hshape with ⟨x, hx⟩ | ⟨x, z, hx⟩
        · exact hs c' (by rw [hx]; simp [hc'])
        · exact hs c' (by rw [hx]; simp [hc'])
      have hex' : ∃ t ∈ ts, tokBreaksDigits t = true := by
        obtain ⟨t, ht, hb⟩ := hex
        rcases List.mem_cons.mp ht with he | ht'
        · subst he
          simp [tokBreaksDigits] at hb
        · exact ⟨t, ht', hb⟩
      exact runToks_digits ts r ⟨pd.y, pd.m, some d⟩ hex' hs'
  | Tok.monFull :: ts, s, pd, _, hs => by
    rw [runToks, parseMonthName_digits monthsFull s monthsFull_heads hs]
  | Tok.monAbbr :: ts, s, pd, _, hs => by
    rw [runToks, parseMonthName_digits monthsAbbr s monthsAbbr_heads hs]
  | Tok.lit c :: ts, [], pd, _, _ => by rw [runToks]
  | Tok.lit c :: ts, x :: xs, pd, hex, hs => by
    rw [runToks]
    by_cases hxc : x = c
    · rw [if_pos hxc]
      have hxd := hs x (by simp)
      have hex' : ∃ t ∈ ts, tokBreaksDigits t = true := by
        obtain ⟨t, ht, hb⟩ := hex
        rcases List.mem_cons.mp ht with he | ht'
        · subst he
          simp only [tokBreaksDigits, Bool.not_eq_true'] at hb
          rw [← hxc, hxd] at hb
          cases hb
        · exact ⟨t, ht', hb⟩
      exact runToks_digits ts xs pd hex' (fun c' hc' => hs c' (by simp [hc']))
    · rw [if_neg hxc]
  | Tok.ws :: ts, [], pd, _, _ => by rw [runToks]
  | Tok.ws :: ts, x :: xs, pd, hex, hs => by
    rw [runToks, if_neg]
    rw [pyWs_digit x (hs x (by simp))]
    simp

theorem fmtToks_breaker : ∀ f : DateFmt, ∃ t ∈ fmtToks f, tokBreaksDigits t = true := by
  intro f
  cases f <;> decide

theorem strptime_digits (f : DateFmt) (s : List Char)
    (hs : ∀ c ∈ s, isAsciiDigit c = true) : strptime f s = none := by
  rw [strptime, runToks_digits (fmtToks f) s ⟨none, none, none⟩ (fmtToks_breaker f) hs]

theorem tryFormats_digits (yr : Nat) :
    ∀ (fs : List DateFmt) (s : List Char),
      (∀ c ∈ s, isAsciiDigit c = true) → tryFormats yr fs s = none
  | [], _, _ => rfl
  | f :: fs, s, hs => by
    rw [tryFormats, strptime_digits f s hs]
    exact tryFormats_digits yr fs s hs

theorem tryFormats_none (yr : Nat) :
    ∀ (fs : List DateFmt) (s : List Char),
      (∀ f ∈ fs, strptime f s = none) → tryFormats yr fs s = none
  | [], _, _ => rfl
  | f :: fs, s, hall => by
    rw [tryFormats, hall f (by simp)]
    exact tryFormats_none yr fs s (fun g hg => hall g (by simp [hg]))

theorem isAsciiDigit_digitChar (n : Nat) : isAsciiDigit (digitChar n) = true := by
  unfold digitChar
  split <;> decide

theorem digitChar_ne_dash (n : Nat) : ¬(digitChar n = '-') := by
  unfold digitChar
  split <;> decide

theorem digitVal_digitChar (n : Nat) (h : n ≤ 9) : digitVal (digitChar n) = n := by
  interval_cases n <;> decide

theorem renderYmd_digits (y m d : Nat) : ∀ c ∈ renderYmd y m d, isAsciiDigit c = true := by
  intro c hc
  simp only [renderYmd, pad4, pad2, List.mem_append, List.mem_cons,
    List.not_mem_nil, or_false] at hc
  rcases hc with ((h | h | h | h) | h | h) | h | h <;> subst h <;>
    exact isAsciiDigit_digitChar _

theorem parse4Y_pad4 (y : Nat) (t : List Char) (hy : y ≤ 9999) :
    parse4Y (pad4 y ++ t) = some (y, t) := by
  have e1 := digitVal_digitChar (y / 1000 % 10) (by omega)
  have e2 := digitVal_digitChar (y / 100 % 10) (by omega)
  have e3 := digitVal_digitChar (y / 10 % 10) (by omega)
  have e4 := digitVal_digitChar (y % 10) (by omega)
  show parse4Y (digitChar (y / 1000 % 10) :: digitChar (y / 100 % 10)
      :: digitChar (y / 10 % 10) :: digitChar (y % 10) :: t) = some (y, t)
  rw [parse4Y, if_pos ⟨isAsciiDigit_digitChar _, isAsciiDigit_digitChar _,
    isAsciiDigit_digitChar _, isAsciiDigit_digitChar _⟩, e1, e2, e3, e4]
  simp only [Option.some.injEq, Prod.mk.injEq]
  exact ⟨by omega, trivial⟩

theorem parse2D_pad2 (v : Nat) (t : List Char) (hv : v ≤ 99) :
    parse2D (pad2 v ++ t) = some (v, t) := by
  have e1 := digitVal_digitChar (v / 10 % 10) (by omega)
  have e2 := digitVal_digitChar (v % 10) (by omega)
  show parse2D (digitChar (v / 10 % 10) :: digitChar (v % 10) :: t) = some (v, t)
  rw [parse2D, if_pos ⟨isAsciiDigit_digitChar _, isAsciiDigit_digitChar _⟩, e1, e2]
  simp only [Option.some.injEq, Prod.mk.injEq]
  exact ⟨by omega, trivial⟩

theorem skipDash_digitChar (n : Nat) (t : List Char) :
    skipDash (digitChar n :: t) = digitChar n :: t := by
  rw [skipDash, if_neg (digitChar_ne_dash n)]

theorem matchYmdAt_render (y m d : Nat) (hy : y ≤ 9999) (hm : m ≤ 99) (hd : d ≤ 99) :
    matchYmdAt (renderYmd y m d) = some (y, m, d) := by
  rw [show renderYmd y m d = pad4 y ++ (pad2 m ++ pad2 d) from by simp [renderYmd]]
  have hsk1 : skipDash (pad2 m ++ pad2 d) = pad2 m ++ pad2 d := by
    show skipDash (digitChar (m / 10 % 10) :: (digitChar (m % 10) :: pad2 d))
      = pad2 m ++ pad2 d
    rw [skipDash_digitChar]
    rfl
  have h2 : parse2D (pad2 m ++ pad2 d) = some (m, pad2 d) := parse2D_pad2 m _ hm
  have hsk2 : skipDash (pad2 d) = pad2 d := by
    show skipDash (digitChar (d / 10 % 10) :: [digitChar (d % 10)]) = pad2 d
    rw [skipDash_digitChar]
    rfl
  have h3 : parse2D (pad2 d) = some (d, []) := by
    have h := parse2D_pad2 d [] hd
    rwa [List.append_nil] at h
  simp only [matchYmdAt, parse4Y_pad4 y _ hy, hsk1, h2, hsk2, h3]

theorem searchYmd_render (y m d : Nat) (hy : y ≤ 9999) (hm : m ≤ 99) (hd : d ≤ 99) :
    searchYmd (renderYmd y m d) = some (y, m, d) := by
  have hcons : renderYmd y m d = digitChar (y / 1000 % 10) :: (digitChar (y / 100 % 10)
      :: digitChar (y / 10 % 10) :: digitChar (y % 10) :: (pad2 m ++ pad2 d)) := by
    simp [renderYmd, pad4]
  rw [hcons, searchYmd, ← hcons, matchYmdAt_render y m d hy hm hd]

theorem matchYmdAt_bound (s : List Char) (y m d : Nat)
    (h : matchYmdAt s = some (y, m, d)) : y ≤ 9999 ∧ m ≤ 99 ∧ d ≤ 99 := by
  rw [matchYmdAt] at h
  split at h
  · cases h
  · rename_i y' r1 hp4
    split at h
    · cases h
    · rename_i m' r2 hp2
      split at h
      · cases h
      · rename_i d' r3 hp3
        simp only [Option.some.injEq, Prod.mk.injEq] at h
        obtain ⟨hy, hm, hd⟩ := h
        subst hy
        subst hm
        subst hd
        exact ⟨(parse4Y_char _ _ _ hp4).1, (parse2D_char _ _ _ hp2).1,
          (parse2D_char _ _ _ hp3).1⟩

theorem searchYmd_bound : ∀ (l : List Char) (y m d : Nat),
    searchYmd l = some (y, m, d) → y ≤ 9999 ∧ m ≤ 99 ∧ d ≤ 99
  | [], y, m, d, h => by simp [searchYmd] at h
  | c :: rest, y, m, d, h => by
    rw [searchYmd] at h
    split at h
    · rename_i v hv
      simp only [Option.some.injEq] at h
      subst h
      exact matchYmdAt_bound (c :: rest) y m d hv
    · exact searchYmd_bound rest y m d h

/-- An in-range canonical "YYYYMMDD" string is a fixed point of
`format_date`: every strptime format rejects it (pure digits), and the
loose digit extraction reproduces it exactly. -/
theorem format_date_render (yr y m d : Nat) (h19 : 1900 ≤ y) (h99 : y ≤ 9999)
    (hyr : y ≤ yr + 10) (hm1 : 1 ≤ m) (hm12 : m ≤ 12) (hd1 : 1 ≤ d)
    (hdm : d ≤ daysInMonth y m) :
    format_date yr (String.mk (renderYmd y m d)) = String.mk (renderYmd y m d) := by
  have hdim := daysInMonth_le y m
  have hdig : ∀ c ∈ renderYmd y m d, isAsciiDigit c = true := renderYmd_digits y m d
  have hne : ¬(String.mk (renderYmd y m d) = "") := by
    intro hcon
    have h0 : renderYmd y m d = ("" : String).data := congrArg String.data hcon
    simp [renderYmd, pad4, pad2] at h0
  have hdm2 : (String.mk (renderYmd y m d)).data = renderYmd y m d := rfl
  rw [format_date, if_neg hne, hdm2, tryFormats_digits yr fmtList _ hdig,
    searchYmd_render y m d h99 (by omega) (by omega)]
  dsimp only
  rw [if_pos ⟨hm1, hm12, hd1, by omega, h19, hyr, hdm⟩]

theorem tryFormats_shape (yr : Nat) :
    ∀ (fs : List DateFmt) (s : List Char) (out : String),
      tryFormats yr fs s = some out →
      ∃ y m d, 1900 ≤ y ∧ y ≤ 9999 ∧ y ≤ yr + 10 ∧ 1 ≤ m ∧ m ≤ 12 ∧ 1 ≤ d
        ∧ d ≤ daysInMonth y m ∧ out = String.mk (renderYmd y m d)
  | [], s, out, h => by simp [tryFormats] at h
  | f :: fs, s, out, h => by
    rw [tryFormats] at h
    split at h
    · rename_i y m d hp
      split_ifs at h with hr
      · exact tryFormats_shape yr fs s out h
      · simp only [Option.some.injEq] at h
        subst h
        push_neg at hr
        obtain ⟨h1, h2, h3, h4, h5, h6⟩ := strptime_bound f s y m d hp
        exact ⟨y, m, d, by omega, h2, by omega, h3, h4, h5, h6, rfl⟩
    · exact tryFormats_shape yr fs s out h

/-- Every `format_date` output is the sentinel or a canonical rendering of
an in-range valid calendar date. -/
theorem format_date_shape (yr : Nat) (s : String) :
    format_date yr s = "00000000"
    ∨ ∃ y m d, 1900 ≤ y ∧ y ≤ 9999 ∧ y ≤ yr + 10 ∧ 1 ≤ m ∧ m ≤ 12 ∧ 1 ≤ d
        ∧ d ≤ daysInMonth y m ∧ format_date yr s = String.mk (renderYmd y m d) := by
  by_cases hse : s = ""
  · left
    rw [format_date, if_pos hse]
  · cases ht : tryFormats yr fmtList s.data with
    | some out =>
      obtain ⟨y, m, d, h1, h2, h3, h4, h5, h6, h7, h8⟩ :=
        tryFormats_shape yr fmtList s.data out ht
      right
      refine ⟨y, m, d, h1, h2, h3, h4, h5, h6, h7, ?_⟩
      rw [format_date, if_neg hse, ht]
      exact h8
    | none =>
      cases hs : searchYmd s.data with
      | some v =>
        obtain ⟨y, m, d⟩ := v
        by_cases hcond : 1 ≤ m ∧ m ≤ 12 ∧ 1 ≤ d ∧ d ≤ 31 ∧ 1900 ≤ y ∧ y ≤ yr + 10
            ∧ d ≤ daysInMonth y m
        · right
          have hy99 := (searchYmd_bound s.data y m d hs).1
          refine ⟨y, m, d, hcond.2.2.2.2.1, hy99, hcond.2.2.2.2.2.1, hcond.1,
            hcond.2.1, hcond.2.2.1, hcond.2.2.2.2.2.2, ?_⟩
          rw [format_date, if_neg hse, ht, hs]
          dsimp only
          rw [if_pos hcond]
        · left
          rw [format_date, if_neg hse, ht, hs]
          dsimp only
          rw [if_neg hcond]
      | none =>
        left
        rw [format_date, if_neg hse, ht, hs]

theorem format_date_sentinel (yr : Nat) : format_date yr ("00000000") = "00000000" := by
  have hdig : ∀ c ∈ ("00000000" : String).data, isAsciiDigit c = true := by decide
  have hs : searchYmd ("00000000" : String).data = some (0, 0, 0) := by decide
  rw [format_date, if_neg (by decide), tryFormats_digits yr fmtList _ hdig, hs]
  dsimp only
  rw [if_neg (fun hc => absurd hc.1 (by decide))]

theorem tryFormats_cons_hit (yr : Nat) (f : DateFmt) (fs : List DateFmt) (s : List Char)
    (y m d : Nat) (hs : strptime f s = some (y, m, d)) (h1 : 1900 ≤ y)
    (h2 : y ≤ yr + 10) : tryFormats yr (f :: fs) s = some (String.mk (renderYmd y m d)) := by
  rw [tryFormats, hs]
  dsimp only
  rw [if_neg (by omega)]

theorem tryFormats_cons_miss (yr : Nat) (f : DateFmt) (fs : List DateFmt) (s : List Char)
    (hs : strptime f s = none) : tryFormats yr (f :: fs) s = tryFormats yr fs s := by
  rw [tryFormats, hs]

/-- Claim C3: `format_date` is idempotent — applying it to its own output
changes nothing; "2024-09-23" and "09/23/2024" both normalise to
"20240923"; the invalid "2024-13-45" yields the sentinel "00000000"; and a
format match whose parsed year falls outside `[1900, current_year+10]` is
rejected by the format list, falling through to the remaining formats (and
then to the loose digit extraction or the sentinel). -/
theorem claim_C3 (nowYear : Nat) (h2014 : 2014 ≤ nowYear) :
    (∀ s : String, format_date nowYear (format_date nowYear s) = format_date nowYear s)
    ∧ format_date nowYear ("2024-09-23") = ("20240923")
    ∧ format_date nowYear ("09/23/2024") = ("20240923")
    ∧ format_date nowYear ("2024-13-45") = ("00000000")
    ∧ (∀ (f : DateFmt) (fs : List DateFmt) (s : List Char) (y m d : Nat),
        strptime f s = some (y, m, d) → (y < 1900 ∨ nowYear + 10 < y) →
        tryFormats nowYear (f :: fs) s = tryFormats nowYear fs s) := by
  refine ⟨?_, ?_, ?_, ?_, ?_⟩
  · intro s
    rcases format_date_shape nowYear s with h | ⟨y, m, d, h1, h2, h3, h4, h5, h6, h7, h8⟩
    · rw [h]
      exact format_date_sentinel nowYear
    · rw [h8]
      exact format_date_render nowYear y m d h1 h2 h3 h4 h5 h6 h7
  · have hs : strptime DateFmt.ymdDash (("2024-09-23" : String).data)
        = some (2024, 9, 23) := by decide
    have ht : tryFormats nowYear fmtList (("2024-09-23" : String).data)
        = some (String.mk (renderYmd 2024 9 23)) :=
      tryFormats_cons_hit nowYear DateFmt.ymdDash _ _ 2024 9 23 hs (by omega) (by omega)
    rw [format_date, if_neg (by decide), ht]
    dsimp only
    decide
  · have hs0 : strptime DateFmt.ymdDash (("09/23/2024" : String).data) = none := by decide
    have hs : strptime DateFmt.mdySlash (("09/23/2024" : String).data)
        = some (2024, 9, 23) := by decide
    have ht : tryFormats nowYear fmtList (("09/23/2024" : String).data)
        = some (String.mk (renderYmd 2024 9 23)) := by
      rw [show fmtList = DateFmt.ymdDash :: DateFmt.mdySlash
          :: [DateFmt.mdyDash, DateFmt.dmySlash, DateFmt.ymdSlash, DateFmt.bigBdy,
              DateFmt.abbrBdy, DateFmt.dBigY, DateFmt.dAbbrY] from rfl]
      rw [tryFormats_cons_miss nowYear _ _ _ hs0]
      exact tryFormats_cons_hit nowYear DateFmt.mdySlash _ _ 2024 9 23 hs
        (by omega) (by omega)
    rw [format_date, if_neg (by decide), ht]
    dsimp only
    decide
  · have hall : ∀ f ∈ fmtList, strptime f (("2024-13-45" : String).data) = none := by decide
    have ht : tryFormats nowYear fmtList (("2024-13-45" : String).data) = none :=
      tryFormats_none nowYear fmtList _ hall
    have hsr : searchYmd (("2024-13-45" : String).data) = some (2024, 13, 45) := by decide
    rw [format_date, if_neg (by decide), ht, hsr]
    dsimp only
    rw [if_neg (fun hc => absurd hc.2.1 (by decide))]
  · intro f fs s y m d hs hbad
    rw [tryFormats, hs]
    dsimp only
    rw [if_pos hbad]

theorem claim_C3_witness :
    format_date 2026 ("2024-09-23") = ("20240923")
    ∧ format_date 2026 (format_date 2026 ("09/23/2024"))
        = format_date 2026 ("09/23/2024") :=
  ⟨(claim_C3 2026 (by decide)).2.1, (claim_C3 2026 (by decide)).1 ("09/23/2024")⟩

theorem claim_C10_witness :
    clean_filename (some ("The Company Inc")) (some 4)
      = capWords 4 (applyShouty (clean_stage1 ("The Company Inc"))) :=
  claim_C10.1 ("The Company Inc") 4 (by decide) (by decide) (by decide) (by decide)

end OsxRenamer
